import Mathlib

/-!
Verification development for the datalad test-repository mechanism
(`datalad/tests/testrepos/items.py` and `datalad/tests/testrepos/repos.py`).

The Python classes are shallowly embedded as Lean structures; the mutable
object graph (files and repos referencing each other) is represented by a
store keyed by the relative path key that the build engine itself uses for
identity.  Python truthiness on optional strings, ints and bools is made
explicit with small helper functions.  The external command-execution
collaborator (the git/git-annex tool and the filesystem, out of scope per
the specification and living in the helpers module) is modelled as an
oracle record of query functions; each `create` step additionally returns
the list of side effects it performed, so that ordering and abort
behaviour of the build loop can be stated.
-/

/-- Python truthiness of an optional string parameter: `None` and the
empty string are falsy. -/
def truthyOptStr : Option String → Bool
  | none => false
  | some s => s != ""

/-- Python truthiness of an optional int parameter: `None` and `0` are falsy. -/
def optNatTruthy : Option Nat → Bool
  | none => false
  | some n => n != 0

/-- Python truthiness of an optional bool parameter: only `True` is truthy. -/
def optBoolTruthy : Option Bool → Bool
  | some true => true
  | _ => false

/-- Lookup in an association list, first match wins (Python dict access). -/
def lookupA {α : Type} : List (String × α) → String → Option α
  | [], _ => none
  | (k, v) :: l, k2 => if k2 = k then some v else lookupA l k2

/-- Update the value stored under a key, leaving the list unchanged when the
key is absent.  Mutation of a Python object reached through the store. -/
def updateAssoc {α : Type} : List (String × α) → String → (α → α) →
    List (String × α)
  | [], _, _ => []
  | (k0, v) :: l, k, g =>
    (if k0 = k then (k0, g v) else (k0, v)) :: updateAssoc l k g

/-- Insertion into a Python `set`: adding an element that is already a
member leaves the set unchanged. -/
def setInsert {α : Type} [DecidableEq α] (a : α) (l : List α) : List α :=
  if a ∈ l then l else l ++ [a]

/-- Models `os.path.normpath(os.path.join(root, rel))` for the relative path
keys used in test repo definitions (no `..` segments; joining with `.`
yields the root itself). -/
def joinPath (root rel : String) : String :=
  if rel = "." then root else root ++ "/" ++ rel

/-- Whether an `Except` value is a success (no exception raised). -/
def exceptIsOk {ε α : Type} : Except ε α → Bool
  | .ok _ => true
  | .error _ => false

/-- Python `str.startswith` (kernel-computable rendering over the
character list). -/
def pyStartsWith (s pre : String) : Bool :=
  decide (s.data.take pre.data.length = pre.data)

/-- Split a character list at every occurrence of `c` (helper for the
Python string-splitting functions below). -/
def splitOnCharAux (c : Char) : List Char → List Char → List (List Char)
  | [], acc => [acc.reverse]
  | x :: xs, acc =>
    if x = c then acc.reverse :: splitOnCharAux c xs []
    else splitOnCharAux c xs (x :: acc)

/-- Split a string at every occurrence of a character. -/
def splitOnChar (c : Char) (s : String) : List String :=
  (splitOnCharAux c s.data []).map (fun l => String.mk l)

/-- The 9-symbol status alphabet of `ItemFile`, following the short format
of git-status (constants UNTRACKED .. UPDATED_BUT_UNMERGED in items.py). -/
inductive GitStatus
  | untracked
  | unmodified
  | modified
  | added
  | deleted
  | renamed
  | copied
  | typechanged
  | updatedUnmerged
deriving DecidableEq, Repr

/-- State of an `ItemFile` object (items.py).  `repoKey` is the non-owning
reference `self._repo`, represented by the path key of the owning repo in
the store.  `commits` is the set of (SHA, message) pairs. -/
structure ItemFile where
  path : String
  repoKey : String
  content : Option String
  state_index : GitStatus
  state_worktree : GitStatus
  commit_msg : Option String
  src : Option String
  locked : Option Bool
  annexed : Bool
  key : Option String
  commits : List (String × String)
  content_present : Option Bool
deriving DecidableEq, Repr

/-- `ItemFile.is_untracked`: both slots of the status pair are untracked. -/
def ItemFile.is_untracked (f : ItemFile) : Bool :=
  decide (f.state_index = GitStatus.untracked) &&
    decide (f.state_worktree = GitStatus.untracked)

/-- `ItemFile.is_staged`: the index slot is one of MODIFIED, ADDED, DELETED,
RENAMED, COPIED, TYPECHANGED and the worktree slot is UNMODIFIED. -/
def ItemFile.is_staged (f : ItemFile) : Bool :=
  decide (f.state_index ∈ [GitStatus.modified, GitStatus.added,
    GitStatus.deleted, GitStatus.renamed, GitStatus.copied,
    GitStatus.typechanged]) &&
    decide (f.state_worktree = GitStatus.unmodified)

/-- `ItemFile.is_modified`: the index slot or the worktree slot is MODIFIED. -/
def ItemFile.is_modified (f : ItemFile) : Bool :=
  decide (f.state_index = GitStatus.modified) ||
    decide (f.state_worktree = GitStatus.modified)

/-- `ItemFile.is_clean`: both slots are UNMODIFIED. -/
def ItemFile.is_clean (f : ItemFile) : Bool :=
  decide (f.state_index = GitStatus.unmodified) &&
    decide (f.state_worktree = GitStatus.unmodified)

/-- `ItemFile.is_unlocked` is truthy exactly when `locked` is `False`
(`(not self._locked) if self._locked is not None else None`). -/
def ItemFile.is_unlocked (f : ItemFile) : Bool :=
  decide (f.locked = some false)

/-- Errors raised by the item constructors
(`InvalidTestRepoDefinitionError` in exc.py), one constructor per distinct
raise site that the claims are concerned with. -/
inductive ItemError
  | pathNotBeneathRepo
  | srcAndContent
  | neitherSrcNorContent
  | commitMsgInvalidState
  | paramsInvalidNotAnnexed
  | srcStateInvalid
  | configNoDirectV6
  | versionConflict
  | directConflict
  | annexParamsNotAnnex
  | nonInitAnnexNeedsSrc
  | noDirectModeV6
  | paramsWithoutAnnexInit
  | commandRepoRequired
  | dropRepoNotAnnex
deriving DecidableEq, Repr

/-- `ItemFile.__init__` (items.py): the validation chain in source order,
then construction of the object state.  `repoPath` is `repo.path` of the
resolved owning repo, `repoKey` its path key in the store.  Checks use
Python truthiness of the optional parameters, as the source does. -/
def ItemFile.init (path repoPath repoKey : String) (content : Option String)
    (state : GitStatus × GitStatus) (commit_msg : Option String)
    (annexed : Bool) (key : Option String) (src : Option String)
    (locked : Option Bool) : Except ItemError ItemFile :=
  if ¬ pyStartsWith path repoPath then .error .pathNotBeneathRepo
  else if truthyOptStr src ∧ truthyOptStr content then .error .srcAndContent
  else if ¬ truthyOptStr src ∧ ¬ truthyOptStr content then
    .error .neitherSrcNorContent
  else if truthyOptStr commit_msg ∧
      state ≠ (GitStatus.unmodified, GitStatus.unmodified) then
    .error .commitMsgInvalidState
  else if ¬ annexed ∧
      (truthyOptStr src ∨ locked ≠ none ∨ truthyOptStr key) then
    .error .paramsInvalidNotAnnexed
  else if truthyOptStr src ∧
      state ≠ (GitStatus.added, GitStatus.unmodified) then
    .error .srcStateInvalid
  else .ok { path := path, repoKey := repoKey, content := content,
             state_index := state.1, state_worktree := state.2,
             commit_msg := commit_msg, src := src, locked := locked,
             annexed := annexed, key := key, commits := [],
             content_present := none }

/-- State of an `ItemRepo` object (items.py).  `items` is the set
`self._items` of child items, represented by their path keys; `commits`,
`branches` and `remotes` are the sets stored on the object; `superKey` is
the non-owning back-reference to a containing superproject. -/
structure ItemRepo where
  path : String
  src : Option String
  annex : Bool
  annex_version : Option Nat
  annex_direct : Bool
  annex_init : Bool
  items : List String
  commits : List (String × String)
  branches : List String
  remotes : List (String × String)
  superKey : Option String
deriving DecidableEq, Repr

/-- The datalad configuration values consulted by `ItemRepo.__init__`
(`datalad.repo.version`, `datalad.repo.direct`,
`datalad.tests.dataladremote`). -/
structure EngineCfg where
  repoVersion : Nat
  repoDirect : Bool
  dataladremote : Bool
deriving DecidableEq, Repr

/-- `ItemRepo.__init__` (items.py): the validation chain in source order
against the datalad configuration, then defaulting of the annex
parameters and construction of the object state. -/
def ItemRepo.init (cfg : EngineCfg) (path : String) (src : Option String)
    (annex : Bool) (annex_version : Option Nat) (annex_direct : Option Bool)
    (annex_init : Option Bool) : Except ItemError ItemRepo :=
  if 6 ≤ cfg.repoVersion ∧ cfg.repoDirect then .error .configNoDirectV6
  else if annex_version ≠ none ∧ annex_version ≠ some cfg.repoVersion then
    .error .versionConflict
  else if annex_direct ≠ none ∧ annex_direct ≠ some cfg.repoDirect then
    .error .directConflict
  else if ¬ annex ∧ (optNatTruthy annex_version ∨ optBoolTruthy annex_direct
      ∨ optBoolTruthy annex_init) then
    .error .annexParamsNotAnnex
  else if annex ∧ annex_init = some false ∧ ¬ truthyOptStr src then
    .error .nonInitAnnexNeedsSrc
  else if annex ∧ optNatTruthy annex_version ∧ optBoolTruthy annex_direct ∧
      6 ≤ annex_version.getD 0 then
    .error .noDirectModeV6
  else if annex_init = some false ∧
      (optNatTruthy annex_version ∨ optBoolTruthy annex_direct) then
    .error .paramsWithoutAnnexInit
  else
    let annex_init1 := if annex ∧ annex_init = none then some true
                       else annex_init
    let annex_version1 := match annex_version with
      | none => some cfg.repoVersion
      | v => v
    let annex_direct1 := match annex_direct with
      | none => some cfg.repoDirect
      | d => d
    .ok { path := path, src := src, annex := annex,
          annex_version := if annex then annex_version1 else none,
          annex_direct := if annex then annex_direct1.getD false else false,
          annex_init := if annex then annex_init1.getD false else false,
          items := [], commits := [], branches := [], remotes := [],
          superKey := none }

/-- The concrete classes of the item type model (items.py), plus the
abstract base `item`. -/
inductive ItemClass
  | item
  | itemRepo
  | itemSelf
  | itemFile
  | itemInfoFile
  | itemCommand
  | itemCommit
  | itemDropFile
  | itemModifyFile
  | itemNewBranch
  | itemAddFile
  | itemAddSubmodule
deriving DecidableEq, Repr

/-- Method resolution order of each class (linear single inheritance in
items.py: ItemSelf < ItemRepo < Item, ItemInfoFile < ItemFile < Item, and
the command variants < ItemCommand < Item). -/
def ItemClass.mro : ItemClass → List ItemClass
  | .item => [.item]
  | .itemRepo => [.itemRepo, .item]
  | .itemSelf => [.itemSelf, .itemRepo, .item]
  | .itemFile => [.itemFile, .item]
  | .itemInfoFile => [.itemInfoFile, .itemFile, .item]
  | .itemCommand => [.itemCommand, .item]
  | .itemCommit => [.itemCommit, .itemCommand, .item]
  | .itemDropFile => [.itemDropFile, .itemCommand, .item]
  | .itemModifyFile => [.itemModifyFile, .itemCommand, .item]
  | .itemNewBranch => [.itemNewBranch, .itemCommand, .item]
  | .itemAddFile => [.itemAddFile, .itemCommand, .item]
  | .itemAddSubmodule => [.itemAddSubmodule, .itemCommand, .item]

/-- Which classes define an `assert_intact` method of their own in
items.py: the base `Item` (whose body raises
`InvalidTestRepoDefinitionError` when invoked), `ItemRepo` and `ItemFile`.
No class in the ItemCommand family overrides it. -/
def definesAssertIntact : ItemClass → Bool
  | .item => true
  | .itemRepo => true
  | .itemFile => true
  | _ => false

/-- The class whose `assert_intact` implementation a method call on an
instance of `c` dispatches to (first definition along the MRO). -/
def assertIntactOwner (c : ItemClass) : Option ItemClass :=
  c.mro.find? definesAssertIntact

/-- Whether calling `assert_intact()` on an instance of `c` reaches the
base-class default, whose body raises `InvalidTestRepoDefinitionError`
(items.py lines 94-103). -/
def assertIntactRaisesOnInvocation (c : ItemClass) : Bool :=
  decide (assertIntactOwner c = some ItemClass.item)

/-- Whether `c` inherits from `ItemCommand` (`ItemCommand` appears in the
MRO). -/
def inheritsFromItemCommand (c : ItemClass) : Bool :=
  decide (ItemClass.itemCommand ∈ c.mro)

/-- Python runtime exceptions that the verbatim transcription of the
remotes section of `ItemRepo.assert_intact` can raise. -/
inductive PyExc
  | typeError
  | indexError
deriving DecidableEq, Repr

/-- Python `str.split()` with no argument: split on whitespace, dropping
empty fields (spaces only; the inputs of interest contain no tabs). -/
def pySplitWs (s : String) : List String :=
  (splitOnChar ' ' s).filter (fun t => t != "")

/-- Python `str.splitlines()` for newline-separated output (a trailing
newline produces no empty final line). -/
def pySplitLines (s : String) : List String :=
  if s = "" then []
  else
    let ps := splitOnChar (Char.ofNat 10) s
    if ps.getLast? = some "" then ps.dropLast else ps

/-- Python list indexing, raising IndexError when out of range. -/
def pyListIndex {α : Type} (l : List α) (i : Nat) : Except PyExc α :=
  match l.get? i with
  | some a => .ok a
  | none => .error .indexError

/-- Python `s.strip(a, b)` with two positional arguments: `str.strip`
takes at most one argument, so the call raises TypeError before looking at
the receiver.  This is exactly what `line.split()[2].strip('(', ')')` in
`ItemRepo.assert_intact` (items.py line 590) does. -/
def pyStripTwoArgs (_s _a _b : String) : Except PyExc String :=
  .error .typeError

/-- Python `==` between a tuple and a str: always `False` (no TypeError,
just an unequal comparison across types). -/
def pyEqTupleStr (_t : String × String × String) (_s : String) : Bool :=
  false

/-- One line of `git remote -v` output as parsed by
`ItemRepo.assert_intact` (items.py lines 588-592):
`(line.split()[0], line.split()[1], line.split()[2].strip('(', ')'))`. -/
def parseRemoteLine (line : String) : Except PyExc (String × String × String) := do
  let w0 ← pyListIndex (pySplitWs line) 0
  let w1 ← pyListIndex (pySplitWs line) 1
  let w2 ← pyListIndex (pySplitWs line) 2
  let d ← pyStripTwoArgs w2 "(" ")"
  pure (w0, w1, d)

/-- The `remote_entries` list comprehension of `ItemRepo.assert_intact`
over the lines of the `git remote -v` output. -/
def remoteEntriesOf (out : String) : Except PyExc (List (String × String × String)) :=
  (pySplitLines out).mapM parseRemoteLine

/-- Equality of two lists viewed as sets (the `eq_(set(...), set(...))`
comparison). -/
def eqAsSets (a b : List (String × String)) : Bool :=
  a.all (fun x => decide (x ∈ b)) && b.all (fun x => decide (x ∈ a))

/-- The remotes section of `ItemRepo.assert_intact` (items.py lines
583-598): parse the `git remote -v` output into (name, url, direction)
triples, keep `(rem[0], rem[1])` for each entry for which the source
evaluates `remote_entries[2] == 'fetch'` (note: the third element of the
whole list, a tuple, compared against a string), and compare the result as
a set against the stored remotes set.  Returns the comparison outcome, or
the Python exception the transcribed code raises. -/
def assertRemotesCheck (out : String) (stored : List (String × String)) :
    Except PyExc Bool := do
  let entries ← remoteEntriesOf out
  let kept ← entries.mapM (fun rem => do
    let probe ← pyListIndex entries 2
    pure (if pyEqTupleStr probe "fetch" then some (rem.1, rem.2.1) else none))
  pure (eqAsSets (kept.filterMap id) stored)

/-- Oracle for the external command-execution collaborator and the
filesystem.  Modelled from the spec: the tool invocation itself and the
helpers module (`_excute_by_item`, `_get_last_commit_from_disc`,
`_get_branch_from_commit`) are not part of the core source; per section 6
of the specification the collaborator accepts an argument vector and
either succeeds with captured output or raises a typed command failure.
`runOk` answers whether an invocation succeeds, `lastCommit` the (SHA,
message) pair of the last commit seen from an item, `branchesOf` the
branches containing a commit, `lookupKey` the annex key of a path,
`readFile` the on-disk content, and the remaining fields answer the
filesystem queries of the create methods. -/
structure Oracle where
  pathExists : String → Bool
  isDir : String → Bool
  listdirNonEmpty : String → Bool
  writeOk : String → Bool
  runOk : List String → Bool
  lastCommit : String → Option (String × String)
  branchesOf : String → String → Option (List String)
  lookupKey : String → Option String
  readFile : String → String

/-- Side effects performed during materialization. -/
inductive Effect
  | mkdir (path : String)
  | writeFile (path : String) (content : String)
  | runCmd (cmd : List String)
  | initDataladRemote (path : String)
deriving DecidableEq, Repr

/-- The engine's store of constructed ItemFile and ItemRepo objects,
keyed by the relative path key used by `TestRepo_NEW._items`. -/
structure Store where
  files : List (String × ItemFile)
  repos : List (String × ItemRepo)
deriving DecidableEq, Repr

/-- Errors raised while a single item materializes:
`TestRepoCreationError`, an `InvalidTestRepoDefinitionError` raised from
inside `ItemFile.create`, or a bare Python IndexError (from `branches[0]`
on an empty branch list). -/
inductive CreateErr
  | creation (msg : String)
  | invalidDefinition (msg : String)
  | indexError
deriving DecidableEq, Repr

/-- `ItemRepo.create` (items.py): ensure the target directory exists, is a
directory and is empty, run git init or clone, record the origin remote
when cloning, run git-annex init (and optionally direct mode), recording
the branches the source records.  The returned store reflects the
mutations performed before any raise. -/
def ItemRepo.create (oracle : Oracle) (cfg : EngineCfg) (st : Store)
    (key : String) : Store × List Effect × Option CreateErr :=
  match lookupA st.repos key with
  | none => (st, [], some (.creation "missing object"))
  | some r =>
    let preEffs := if ¬ oracle.pathExists r.path then [Effect.mkdir r.path]
                   else []
    if oracle.pathExists r.path ∧ ¬ oracle.isDir r.path then
      (st, preEffs, some (.creation "Target path is not a directory."))
    else if oracle.pathExists r.path ∧ oracle.listdirNonEmpty r.path then
      (st, preEffs, some (.creation "Target path is not empty."))
    else
      let createCmd := if truthyOptStr r.src then
          ["git", "clone", r.src.getD "", "."]
        else ["git", "init"]
      let effs1 := preEffs ++ [Effect.runCmd createCmd]
      if ¬ oracle.runOk createCmd then
        (st, effs1, some (.creation "Failed to create git repository"))
      else
        let r1 := if truthyOptStr r.src then
            { r with remotes := setInsert ("origin", r.src.getD "") r.remotes }
          else r
        let st1 := { st with repos := updateAssoc st.repos key (fun _ => r1) }
        if r1.annex ∧ r1.annex_init then
          let annexCmd := ["git", "annex", "init"] ++
            (if optNatTruthy r1.annex_version then
               ["--version=" ++ toString (r1.annex_version.getD 0)]
             else [])
          let effs2 := effs1 ++ [Effect.runCmd annexCmd]
          if ¬ oracle.runOk annexCmd then
            (st1, effs2, some (.creation "Failed to initialize annex"))
          else
            let r2 := { r1 with branches := setInsert "git-annex" r1.branches }
            let st2 := { st1 with
              repos := updateAssoc st1.repos key (fun _ => r2) }
            let effs3 := effs2 ++
              (if cfg.dataladremote then [Effect.initDataladRemote r.path]
               else [])
            if r2.annex_direct then
              let directCmd := ["git", "annex", "direct"]
              let effs4 := effs3 ++ [Effect.runCmd directCmd]
              if ¬ oracle.runOk directCmd then
                (st2, effs4, some (.creation "Failed to switch to direct mode"))
              else
                let r3 := { r2 with
                  branches := setInsert "annex/direct/master" r2.branches }
                ({ st2 with
                   repos := updateAssoc st2.repos key (fun _ => r3) },
                 effs4, none)
            else (st2, effs3, none)
        else (st1, effs1, none)

/-- Default commit message built inside `ItemFile.create`
("{it}: Added file {p} to {git_annex}"; the class repr is rendered as the
plain class name here). -/
def fileDefaultCommitMsg (f : ItemFile) : String :=
  "ItemFile: Added file " ++ f.path ++ " to " ++
    (if f.annexed then "annex" else "git")

/-- The add / unlock / commit tail of `ItemFile.create` (items.py lines
921-1011), entered with `to_add` true and `to_commit` as given.  `st`
already contains the repo membership update performed before this point. -/
def fileAddPhase (oracle : Oracle) (st : Store) (key : String) (f : ItemFile)
    (effs0 : List Effect) (to_commit : Bool) :
    Store × List Effect × Option CreateErr :=
  let add_cmd := if f.annexed then
      (if truthyOptStr f.src then
         ["git", "annex", "addurl", f.src.getD "", "--file=" ++ f.path]
       else ["git", "annex", "add", f.path])
    else ["git", "--work-tree=.", "add", f.path]
  let effs1 := effs0 ++ [Effect.runCmd add_cmd]
  if ¬ oracle.runOk add_cmd then
    (st, effs1, some (.creation "Failed to add"))
  else
    let f1 := if f.annexed then { f with content_present := some true } else f
    let lookupNeeded := f1.annexed ∧ ¬ truthyOptStr f1.key
    let effs2 := effs1 ++
      (if lookupNeeded then
         [Effect.runCmd ["git", "annex", "lookupkey", f1.path]]
       else [])
    if lookupNeeded ∧ (oracle.lookupKey f1.path).isNone then
      ({ st with files := updateAssoc st.files key (fun _ => f1) }, effs2,
       some (.creation "Failed to look up annex key"))
    else
      let f2 := if lookupNeeded then { f1 with key := oracle.lookupKey f1.path }
                else f1
      let f3 := if f2.annexed ∧ truthyOptStr f2.src then
          { f2 with content := some (oracle.readFile f2.path) }
        else f2
      let stA := { st with files := updateAssoc st.files key (fun _ => f3) }
      let unlock_cmd := ["git", "annex", "unlock", f3.path]
      let effs3 := effs2 ++
        (if f3.is_unlocked then [Effect.runCmd unlock_cmd] else [])
      if f3.is_unlocked ∧ ¬ oracle.runOk unlock_cmd then
        (stA, effs3, some (.creation "Failed to unlock"))
      else if to_commit then
        let msg := if truthyOptStr f3.commit_msg then f3.commit_msg.getD ""
                   else fileDefaultCommitMsg f3
        let f4 := { f3 with commit_msg := some msg }
        let commit_cmd := ["git", "--work-tree=.", "commit", "-m",
          "\"" ++ msg ++ "\"", "--", f4.path]
        let stB := { stA with files := updateAssoc stA.files key (fun _ => f4) }
        let effs4 := effs3 ++ [Effect.runCmd commit_cmd]
        if ¬ oracle.runOk commit_cmd then
          (stB, effs4, some (.creation "Failed to commit"))
        else
          match oracle.lastCommit f4.path with
          | none => (stB, effs4, some (.creation "Failed to look up commit SHA"))
          | some commit =>
            let f5 := { f4 with commits := setInsert commit f4.commits }
            let stC := { stB with
              files := updateAssoc stB.files key (fun _ => f5),
              repos := updateAssoc stB.repos f5.repoKey
                (fun r => { r with commits := setInsert commit r.commits }) }
            match oracle.branchesOf f5.path commit.1 with
            | none => (stC, effs4, some (.creation "Failed to look up branch"))
            | some branches =>
              if 2 ≤ branches.length then
                (stC, effs4,
                 some (.creation "Unexpectedly found commit in multiple branches"))
              else
                match branches with
                | [] => (stC, effs4, some .indexError)
                | b :: _ =>
                  ({ stC with
                     repos := updateAssoc stC.repos f5.repoKey
                       (fun r => { r with branches := setInsert b r.branches }) },
                   effs4, none)
      else (stA, effs3, none)

/-- `ItemFile.create` (items.py lines 861-1011): refuse an existing path,
write the declared content, register with the owning repo, then depending
on the declared status pair stop (untracked), add (added, unmodified), or
add and commit (clean pair); any other initial pair raises an
`InvalidTestRepoDefinitionError` from within create. -/
def ItemFile.create (oracle : Oracle) (st : Store) (key : String) :
    Store × List Effect × Option CreateErr :=
  match lookupA st.files key with
  | none => (st, [], some (.creation "missing object"))
  | some f =>
    if oracle.pathExists f.path then
      (st, [], some (.creation "Path already exists."))
    else
      let writeEffs := if truthyOptStr f.content then
          [Effect.writeFile f.path (f.content.getD "")]
        else []
      if truthyOptStr f.content ∧ ¬ oracle.writeOk f.path then
        (st, writeEffs, some (.creation "write failed"))
      else
        let st0 := { st with
          repos := updateAssoc st.repos f.repoKey
            (fun r => { r with items := setInsert key r.items }) }
        if f.is_untracked then (st0, writeEffs, none)
        else if f.state_index = GitStatus.added ∧
            f.state_worktree = GitStatus.unmodified then
          fileAddPhase oracle st0 key f writeEffs false
        else if f.is_clean then
          fileAddPhase oracle st0 key f writeEffs true
        else
          (st0, writeEffs,
           some (.invalidDefinition "Requested state is invalid as initial definition"))

/-- The per-file mutation of `ItemCommit.create` (items.py lines
1289-1297): add the commit to the file's commit set and set the index slot
of the status pair to UNMODIFIED.  The worktree slot is not touched. -/
def commitFileTransform (commit : String × String) (f : ItemFile) : ItemFile :=
  { f with commits := setInsert commit f.commits,
           state_index := GitStatus.unmodified }

/-- One iteration of the loop of `ItemCommit.create` over the referenced
items: apply `commitFileTransform` to the referenced file and register it
with the command repo (`self._repo._items.add(it)`). -/
def commitRefStep (commit : String × String) (repoKey : String)
    (s : Store) (k : String) : Store :=
  { files := updateAssoc s.files k (commitFileTransform commit),
    repos := updateAssoc s.repos repoKey
      (fun r => { r with items := setInsert k r.items }) }

/-- The loop of `ItemCommit.create` over the referenced items. -/
def applyCommitRefs (commit : String × String) (repoKey : String)
    (refs : List String) (st : Store) : Store :=
  refs.foldl (commitRefStep commit repoKey) st

/-- `ItemCommit.create` (items.py lines 1275-1316): run the commit
command, look up the resulting (SHA, message) pair, add it to the repo's
commit set, update every referenced file, then discover the branch
containing the commit; more than one branch is a creation error, an empty
branch list hits `branches[0]` and raises IndexError, and otherwise the
single branch is added to the repo. -/
def itemCommitCreate (oracle : Oracle) (st : Store) (cwd repoKey : String)
    (refs : List String) (cmd : List String) :
    Store × List Effect × Option CreateErr :=
  if ¬ oracle.runOk cmd then
    (st, [Effect.runCmd cmd], some (.creation "Command failed"))
  else
    match oracle.lastCommit cwd with
    | none => (st, [Effect.runCmd cmd],
               some (.creation "Failed to look up commit SHA"))
    | some commit =>
      let st1 := { st with
        repos := updateAssoc st.repos repoKey
          (fun r => { r with commits := setInsert commit r.commits }) }
      let st2 := applyCommitRefs commit repoKey refs st1
      match oracle.branchesOf cwd commit.1 with
      | none => (st2, [Effect.runCmd cmd],
                 some (.creation "Failed to look up branch"))
      | some branches =>
        if 2 ≤ branches.length then
          (st2, [Effect.runCmd cmd],
           some (.creation "Unexpectedly found commit in multiple branches"))
        else
          match branches with
          | [] => (st2, [Effect.runCmd cmd], some .indexError)
          | b :: _ =>
            ({ st2 with
               repos := updateAssoc st2.repos repoKey
                 (fun r => { r with branches := setInsert b r.branches }) },
             [Effect.runCmd cmd], none)

/-- The per-file mutation of `ItemDropFile.create`: mark the content as
no longer locally present. -/
def dropFileTransform (f : ItemFile) : ItemFile :=
  { f with content_present := some false }

/-- One step of the notification loop of `ItemDropFile.create`. -/
def dropRefStep (s : Store) (k : String) : Store :=
  { s with files := updateAssoc s.files k dropFileTransform }

/-- `ItemDropFile.create` (items.py lines 1352-1361): run the drop
command, then set `content_present` to `False` on every referenced file. -/
def itemDropFileCreate (oracle : Oracle) (st : Store) (refs : List String)
    (cmd : List String) : Store × List Effect × Option CreateErr :=
  if ¬ oracle.runOk cmd then
    (st, [Effect.runCmd cmd], some (.creation "Command failed"))
  else
    (refs.foldl dropRefStep st, [Effect.runCmd cmd], none)

/-- The content-comparison guard of `ItemFile.assert_intact` (items.py
lines 1101-1104): the stored content is byte-compared against the on-disk
content exactly when `self.content_available or not self.annexed` is
truthy. -/
def contentComparisonPerformed (f : ItemFile) : Bool :=
  optBoolTruthy f.content_present || !f.annexed

/-- A resolved entry of the execution list (`TestRepo_NEW._execution`).
Commands carry the fully built argument vector (references already
appended as absolute paths), repos and files are referenced by their path
key into the store. -/
inductive ExecItem
  | repo (key : String)
  | file (key : String)
  | command (cmd : List String) (cwd : String)
  | commit (cmd : List String) (cwd : String) (repoKey : String)
      (refs : List String)
  | drop (cmd : List String) (cwd : String) (repoKey : String)
      (refs : List String)
deriving DecidableEq, Repr

/-- Dispatch of `item.create()` for one entry of the execution list. -/
def createItem (oracle : Oracle) (cfg : EngineCfg) (st : Store) :
    ExecItem → Store × List Effect × Option CreateErr
  | .repo k => ItemRepo.create oracle cfg st k
  | .file k => ItemFile.create oracle st k
  | .command cmd _cwd =>
    (st, [Effect.runCmd cmd],
     if oracle.runOk cmd then none else some (.creation "Command failed"))
  | .commit cmd cwd rk refs => itemCommitCreate oracle st cwd rk refs cmd
  | .drop cmd _cwd _rk refs => itemDropFileCreate oracle st refs cmd

/-- A materialization failure as it leaves `TestRepo_NEW.create`: the
engine catches `TestRepoCreationError` and annotates it with the offending
index (repos.py lines 412-419); other exceptions propagate unannotated. -/
inductive CreateFailure
  | creationAt (index : Nat) (msg : String)
  | invalidDefinition (msg : String)
  | indexError
deriving DecidableEq, Repr

/-- Annotation applied by the `except TestRepoCreationError` handler of
`TestRepo_NEW.create`. -/
def wrapCreateErr (idx : Nat) : CreateErr → CreateFailure
  | .creation m => .creationAt idx m
  | .invalidDefinition m => .invalidDefinition m
  | .indexError => .indexError

/-- `TestRepo_NEW.create` (repos.py lines 408-419): call `create()` on
every entry of the execution list in order, accumulating side effects;
the first failure stops the loop and is annotated with the entry's index.
The returned store keeps all mutations performed up to and including the
failing entry. -/
def createLoop (oracle : Oracle) (cfg : EngineCfg) :
    Nat → Store → List ExecItem → Store × List Effect × Option CreateFailure
  | _, st, [] => (st, [], none)
  | idx, st, it :: rest =>
    match createItem oracle cfg st it with
    | (st1, effs, some e) => (st1, effs, some (wrapCreateErr idx e))
    | (st1, effs, none) =>
      match createLoop oracle cfg (idx + 1) st1 rest with
      | (st2, effs2, r) => (st2, effs ++ effs2, r)

/-- Errors raised during definition resolution
(`InvalidTestRepoDefinitionError` with the index information the engine
attaches in repos.py). -/
inductive DefError
  | missingPath (index : Nat)
  | duplicatePath (index : Nat) (key : String)
  | refBeforeDefinition (index : Nat) (key : String)
  | missingCwdAndRepo (index : Nat)
  | missingRepoArg (index : Nat)
  | itemInit (index : Nat) (e : ItemError)
  | commandRepoRequired (index : Nat)
  | dropRepoNotAnnex (index : Nat)
  | multipleSelf (index : Nat)
  | noSelf
deriving DecidableEq, Repr

/-- One entry of `TestRepo_NEW._item_definitions`: the Item subclass plus
the keyword arguments of its construction.  Paths and references are
relative path-key strings, exactly as written in the definitions. -/
inductive ItemDef
  | repo (path : Option String) (src : Option String) (annex : Bool)
      (annex_version : Option Nat) (annex_direct : Option Bool)
      (annex_init : Option Bool) (isSelf : Bool)
  | file (path : Option String) (repo : Option String)
      (content : Option String) (state : GitStatus × GitStatus)
      (commit_msg : Option String) (annexed : Bool) (key : Option String)
      (src : Option String) (locked : Option Bool) (isInfo : Bool)
  | command (cmd : List String) (item : List String) (cwd : Option String)
      (repo : Option String)
  | commit (item : List String) (cwd : Option String) (msg : Option String)
      (repo : Option String)
  | dropFile (item : List String) (cwd : Option String)
      (repo : Option String)
deriving DecidableEq, Repr

/-- Kind of a non-command item as stored in the engine's path index
(stands in for Python isinstance checks on the indexed objects). -/
inductive ItemSort
  | repo
  | file
deriving DecidableEq, Repr

/-- Resolution state threaded through `TestRepo_NEW.__init__`: the store
of constructed objects, the path index `self._items` (key to kind), the
execution list and the designated self entry. -/
structure ResolveState where
  store : Store
  itemsIndex : List (String × ItemSort)
  execution : List ExecItem
  selfKey : Option String
deriving DecidableEq, Repr

/-- The empty resolution state at the start of `TestRepo_NEW.__init__`. -/
def initResolveState : ResolveState :=
  { store := { files := [], repos := [] }, itemsIndex := [],
    execution := [], selfKey := none }

/-- Absolute path of an already indexed item (`self._items[key].path`). -/
def ResolveState.pathOf (st : ResolveState) (k : String) : String :=
  match lookupA st.itemsIndex k with
  | some ItemSort.repo =>
    (match lookupA st.store.repos k with
     | some r => r.path
     | none => "")
  | some ItemSort.file =>
    (match lookupA st.store.files k with
     | some f => f.path
     | none => "")
  | none => ""

/-- The effective path key of a Repo/File entry (repos.py lines 220-233):
a truthy `path` argument is used as given; a missing or falsy one defaults
to `INFO.txt` for the info-file kind and is a definition error otherwise. -/
def effectivePathKey (isInfo : Bool) (path : Option String) : Option String :=
  if truthyOptStr path then path
  else if isInfo then some "INFO.txt" else none

/-- Content default of `ItemInfoFile.__init__`; the real text interpolates
the git, git-annex and datalad versions and the definition list, which are
external to this core.  Only non-emptiness matters to the control flow. -/
def infoFileDefaultContent : String :=
  "git: GITVERSION; annex: ANNEXVERSION; datalad: DLVERSION; definition"

/-- Commit-message default of `ItemInfoFile.__init__`
("{}: Added ItemInfoFile ({})."). -/
def infoFileDefaultCommitMsg (p : String) : String :=
  "ItemInfoFile: Added ItemInfoFile (" ++ p ++ ")."

/-- Default commit message of `ItemCommit.__init__`; the source
interpolates the item reprs and count, rendered here from the referenced
paths. -/
def commitDefaultMsg (refPaths : List String) : String :=
  if refPaths ≠ [] then
    "ItemCommit: Committed " ++ toString refPaths.length ++ ": " ++
      String.intercalate ", " refPaths
  else "ItemCommit: Committed staged changes."

/-- Result of the command-argument handling shared by all Command kinds
(repos.py lines 172-212). -/
structure CmdResolution where
  cwdAbs : Option String
  repoKey : Option String
  refKeys : List String
deriving DecidableEq, Repr

/-- `_path2item` over a list-valued reference argument: each key must
already be indexed, otherwise the definition error names the entry's index
and the first missing key. -/
def resolveRefList (idx : Nat) (st : ResolveState) :
    List String → Except DefError (List String)
  | [] => .ok []
  | k :: ks =>
    if (lookupA st.itemsIndex k).isSome then
      (resolveRefList idx st ks).map (fun rs => k :: rs)
    else .error (.refBeforeDefinition idx k)

/-- Command-entry argument handling (repos.py lines 172-212): require a
truthy `cwd` or `repo`, derive `repo` from `cwd` when only `cwd` was given
and an ItemRepo is indexed there, absolutize a truthy `cwd`, resolve a
truthy `repo` reference, then resolve the `item` references. -/
def resolveCommandCommon (root : String) (idx : Nat) (st : ResolveState)
    (itemRefs : List String) (cwd repo : Option String) :
    Except DefError CmdResolution :=
  if ¬ truthyOptStr cwd ∧ ¬ truthyOptStr repo then
    .error (.missingCwdAndRepo idx)
  else
    let repo1 : Option String :=
      if truthyOptStr repo then repo
      else
        match cwd with
        | some c =>
          (match lookupA st.itemsIndex c with
           | some ItemSort.repo => some c
           | _ => none)
        | none => none
    let cwdAbs : Option String :=
      if truthyOptStr cwd then cwd.map (joinPath root) else cwd
    let repoRes : Except DefError (Option String) :=
      if truthyOptStr repo1 then
        match repo1 with
        | some rk =>
          if (lookupA st.itemsIndex rk).isSome then .ok (some rk)
          else .error (.refBeforeDefinition idx rk)
        | none => .ok none
      else .ok none
    match repoRes with
    | .error e => .error e
    | .ok rk? =>
      match resolveRefList idx st itemRefs with
      | .error e => .error e
      | .ok refs =>
        .ok { cwdAbs := cwdAbs, repoKey := rk?, refKeys := refs }

/-- The working directory an ItemCommand ends up with
(`if not cwd: cwd = repo.path` in `ItemCommand.__init__`). -/
def cmdCwd (st : ResolveState) (cr : CmdResolution) : String :=
  if truthyOptStr cr.cwdAbs then cr.cwdAbs.getD ""
  else
    match cr.repoKey with
    | some rk => st.pathOf rk
    | none => ""

/-- Append the referenced item paths to an argument vector
(`ItemCommand.__init__`: `self._cmd.append('--'); self._cmd.extend(...)`
when items were passed). -/
def appendRefPaths (cmd : List String) (refPaths : List String) :
    List String :=
  if refPaths ≠ [] then cmd ++ ("--" :: refPaths) else cmd

/-- Resolution of a Repo-kind entry (repos.py lines 214-250 and 290-316):
path key with duplicate check, absolutization, `ItemRepo.__init__`, store
and index insertion, and the single-`ItemSelf` tracking. -/
def resolveRepoEntry (root : String) (cfg : EngineCfg) (idx : Nat)
    (st : ResolveState) (path src : Option String) (annex : Bool)
    (annex_version : Option Nat) (annex_direct : Option Bool)
    (annex_init : Option Bool) (isSelf : Bool) :
    Except DefError ResolveState :=
  match effectivePathKey false path with
  | none => .error (.missingPath idx)
  | some rPath =>
    if (lookupA st.itemsIndex rPath).isSome then
      .error (.duplicatePath idx rPath)
    else
      match ItemRepo.init cfg (joinPath root rPath) src annex annex_version
          annex_direct annex_init with
      | .error e => .error (.itemInit idx e)
      | .ok r =>
        let st1 : ResolveState :=
          { store := { st.store with repos := (rPath, r) :: st.store.repos },
            itemsIndex := (rPath, ItemSort.repo) :: st.itemsIndex,
            execution := st.execution ++ [ExecItem.repo rPath],
            selfKey := st.selfKey }
        if isSelf then
          if st.selfKey.isSome then .error (.multipleSelf idx)
          else .ok { st1 with selfKey := some rPath }
        else .ok st1

/-- Shared tail of the File-entry resolution: wrap a constructor error
with the entry index, or insert the constructed file into the store, the
path index and the execution list. -/
def finishFileEntry (st : ResolveState) (rPath : String) (idx : Nat) :
    Except ItemError ItemFile → Except DefError ResolveState
  | .error e => .error (.itemInit idx e)
  | .ok f =>
    .ok { store := { st.store with files := (rPath, f) :: st.store.files },
          itemsIndex := (rPath, ItemSort.file) :: st.itemsIndex,
          execution := st.execution ++ [ExecItem.file rPath],
          selfKey := st.selfKey }

/-- Resolution of a File-kind entry (repos.py lines 214-250, 256-269 and
275-300): path key with duplicate check, absolutization, required `repo`
reference resolved through the index, ItemInfoFile content and
commit-message defaulting, then `ItemFile.__init__`. -/
def resolveFileEntry (root : String) (idx : Nat) (st : ResolveState)
    (path repoRef content : Option String) (state : GitStatus × GitStatus)
    (commit_msg : Option String) (annexed : Bool) (key src : Option String)
    (locked : Option Bool) (isInfo : Bool) : Except DefError ResolveState :=
  match effectivePathKey isInfo path with
  | none => .error (.missingPath idx)
  | some rPath =>
    if (lookupA st.itemsIndex rPath).isSome then
      .error (.duplicatePath idx rPath)
    else if ¬ truthyOptStr repoRef then .error (.missingRepoArg idx)
    else
      match repoRef with
      | none =>.error (.missingRepoArg idx)
      | some rk =>
        if (lookupA st.itemsIndex rk).isSome then
          let content1 := if isInfo ∧ ¬ truthyOptStr content then
              some infoFileDefaultContent
            else content
          let commit_msg1 := if isInfo ∧ ¬ truthyOptStr commit_msg ∧
              state = (GitStatus.unmodified, GitStatus.unmodified) then
              some (infoFileDefaultCommitMsg rPath)
            else commit_msg
          finishFileEntry st rPath idx
            (ItemFile.init (joinPath root rPath) (st.pathOf rk) rk
              content1 state commit_msg1 annexed key src locked)
        else .error (.refBeforeDefinition idx rk)

/-- Resolution of a generic Command entry: shared argument handling, then
`ItemCommand.__init__` deriving the working directory and appending the
referenced paths to the argument vector. -/
def resolveGenericCommandEntry (root : String) (idx : Nat)
    (st : ResolveState) (cmd : List String) (itemRefs : List String)
    (cwd repo : Option String) : Except DefError ResolveState :=
  match resolveCommandCommon root idx st itemRefs cwd repo with
  | .error e => .error e
  | .ok cr =>
    let fullCmd := appendRefPaths cmd (cr.refKeys.map st.pathOf)
    .ok { st with
          execution := st.execution ++ [ExecItem.command fullCmd (cmdCwd st cr)] }

/-- Resolution of an `ItemCommit` entry: shared argument handling, the
required `repo` parameter, default message, and the git-commit argument
vector (`['git', '--work-tree=.', 'commit', '-m', '"msg"']` plus the
referenced paths). -/
def resolveCommitEntry (root : String) (idx : Nat) (st : ResolveState)
    (itemRefs : List String) (cwd msg repo : Option String) :
    Except DefError ResolveState :=
  match resolveCommandCommon root idx st itemRefs cwd repo with
  | .error e => .error e
  | .ok cr =>
    match cr.repoKey with
    | none => .error (.commandRepoRequired idx)
    | some rk =>
      let refPaths := cr.refKeys.map st.pathOf
      let m := if truthyOptStr msg then msg.getD ""
               else commitDefaultMsg refPaths
      let fullCmd := appendRefPaths
        ["git", "--work-tree=.", "commit", "-m", "\"" ++ m ++ "\""] refPaths
      .ok { st with
            execution := st.execution ++
              [ExecItem.commit fullCmd (cmdCwd st cr) rk cr.refKeys] }

/-- Resolution of an `ItemDropFile` entry: shared argument handling, the
required `repo` parameter which must be an annex-enabled ItemRepo, and the
git-annex-drop argument vector. -/
def resolveDropEntry (root : String) (idx : Nat) (st : ResolveState)
    (itemRefs : List String) (cwd repo : Option String) :
    Except DefError ResolveState :=
  match resolveCommandCommon root idx st itemRefs cwd repo with
  | .error e => .error e
  | .ok cr =>
    match cr.repoKey with
    | none => .error (.commandRepoRequired idx)
    | some rk =>
      match lookupA st.store.repos rk with
      | none => .error (.dropRepoNotAnnex idx)
      | some r =>
        if ¬ r.annex then .error (.dropRepoNotAnnex idx)
        else
          let fullCmd := appendRefPaths ["git", "annex", "drop"]
            (cr.refKeys.map st.pathOf)
          .ok { st with
                execution := st.execution ++
                  [ExecItem.drop fullCmd (cmdCwd st cr) rk cr.refKeys] }

/-- Per-entry processing of `TestRepo_NEW.__init__`. -/
def resolveEntry (root : String) (cfg : EngineCfg) (idx : Nat)
    (st : ResolveState) : ItemDef → Except DefError ResolveState
  | .repo p src annex av ad ai isSelf =>
    resolveRepoEntry root cfg idx st p src annex av ad ai isSelf
  | .file p r c stt cm ax k s lk info =>
    resolveFileEntry root idx st p r c stt cm ax k s lk info
  | .command cmd its cwd r =>
    resolveGenericCommandEntry root idx st cmd its cwd r
  | .commit its cwd m r => resolveCommitEntry root idx st its cwd m r
  | .dropFile its cwd r => resolveDropEntry root idx st its cwd r

/-- The resolution loop of `TestRepo_NEW.__init__` over the definition
list, stopping at the first definition error. -/
def resolveEntries (root : String) (cfg : EngineCfg) :
    Nat → ResolveState → List ItemDef → Except DefError ResolveState
  | _, st, [] => .ok st
  | idx, st, d :: rest =>
    match resolveEntry root cfg idx st d with
    | .error e => .error e
    | .ok st1 => resolveEntries root cfg (idx + 1) st1 rest

/-- Full resolution (`TestRepo_NEW.__init__` before the call to
`self.create()`): the loop over the definitions followed by the check that
exactly one `ItemSelf` was declared. -/
def resolveDefs (root : String) (cfg : EngineCfg) (defs : List ItemDef) :
    Except DefError ResolveState :=
  match resolveEntries root cfg 0 initResolveState defs with
  | .error e => .error e
  | .ok st => if st.selfKey.isSome then .ok st else .error .noSelf

/-- The build: definition resolution followed by the materialization loop.
A resolution error aborts before any side effect is performed; the
post-creation root discovery and root-item check of the source are not
modelled because no claim concerns them. -/
def buildTestRepo (oracle : Oracle) (cfg : EngineCfg) (root : String)
    (defs : List ItemDef) :
    Except DefError (Store × List Effect × Option CreateFailure) :=
  match resolveDefs root cfg defs with
  | .error e => .error e
  | .ok st => .ok (createLoop oracle cfg 0 st.store st.execution)

/-- Whether a definition entry is of Repo or File kind. -/
def ItemDef.isPathItem : ItemDef → Bool
  | .repo _ _ _ _ _ _ _ => true
  | .file _ _ _ _ _ _ _ _ _ _ => true
  | _ => false

/-- Whether a definition entry is of a Command kind. -/
def ItemDef.isCommandDef : ItemDef → Bool
  | .command _ _ _ _ => true
  | .commit _ _ _ _ => true
  | .dropFile _ _ _ => true
  | _ => false

/-- The effective path key a Repo/File entry is indexed under. -/
def ItemDef.pathKey : ItemDef → Option String
  | .repo p _ _ _ _ _ _ => effectivePathKey false p
  | .file p _ _ _ _ _ _ _ _ info => effectivePathKey info p
  | _ => none

/-- The `cwd` argument of a Command entry. -/
def ItemDef.cwdArg : ItemDef → Option String
  | .command _ _ cwd _ => cwd
  | .commit _ cwd _ _ => cwd
  | .dropFile _ cwd _ => cwd
  | _ => none

/-- The `repo` argument of a Command entry. -/
def ItemDef.repoArg : ItemDef → Option String
  | .command _ _ _ r => r
  | .commit _ _ _ r => r
  | .dropFile _ _ r => r
  | _ => none

/-- The `item` argument of a Command entry. -/
def ItemDef.itemArg : ItemDef → List String
  | .command _ its _ _ => its
  | .commit its _ _ _ => its
  | .dropFile its _ _ => its
  | _ => []

/-- The string path references a Command entry asks the engine to resolve:
a truthy `repo` argument and every element of the `item` argument. -/
def ItemDef.commandRefKeys (d : ItemDef) : List String :=
  (if truthyOptStr d.repoArg then [d.repoArg.getD ""] else []) ++ d.itemArg

/-- A concrete datalad configuration (annex repository version 5, no
direct mode, no datalad special remote) used by the concrete instances
below. -/
def cfg0 : EngineCfg :=
  { repoVersion := 5, repoDirect := false, dataladremote := false }

/-- A concrete oracle on which every tool invocation succeeds. -/
def oracle0 : Oracle :=
  { pathExists := fun _ => false, isDir := fun _ => true,
    listdirNonEmpty := fun _ => false, writeOk := fun _ => true,
    runOk := fun _ => true,
    lastCommit := fun _ => some ("sha1", "m1"),
    branchesOf := fun _ _ => some ["master"],
    lookupKey := fun _ => some "KEY1",
    readFile := fun _ => "remote content" }

/-- A concrete staged plain-git file. -/
def fileA : ItemFile :=
  { path := "/tr/a.dat", repoKey := ".", content := some "123",
    state_index := GitStatus.added, state_worktree := GitStatus.unmodified,
    commit_msg := none, src := none, locked := none, annexed := false,
    key := none, commits := [], content_present := none }

/-- A concrete annexed file whose content is locally present. -/
def fileB : ItemFile :=
  { path := "/tr/b.dat", repoKey := ".", content := some "456",
    state_index := GitStatus.added, state_worktree := GitStatus.unmodified,
    commit_msg := none, src := none, locked := none, annexed := true,
    key := some "KEYB", commits := [], content_present := some true }

/-- A concrete annex-enabled repository owning the two files above. -/
def repo0 : ItemRepo :=
  { path := "/tr", src := none, annex := true, annex_version := some 5,
    annex_direct := false, annex_init := true,
    items := ["a.dat", "b.dat"], commits := [], branches := ["git-annex"],
    remotes := [], superKey := none }

/-- A concrete store holding `repo0`, `fileA` and `fileB`. -/
def demoStore : Store :=
  { files := [("a.dat", fileA), ("b.dat", fileB)], repos := [(".", repo0)] }

/-- An oracle on which the path of `fileB` already exists on disk, so its
materialization fails. -/
def oracle6 : Oracle :=
  { oracle0 with pathExists := fun p => p = "/tr/b.dat" }

/-- A two-entry execution list: `fileA` then `fileB`. -/
def demoExec : List ExecItem := [ExecItem.file "a.dat", ExecItem.file "b.dat"]

/-- The store after the successful prefix of `demoExec` under `oracle6`. -/
def demoStore61 : Store :=
  (createLoop oracle6 cfg0 0 demoStore (demoExec.take 1)).1

/-- The effects of the successful prefix of `demoExec` under `oracle6`. -/
def demoEffs6 : List Effect :=
  (createLoop oracle6 cfg0 0 demoStore (demoExec.take 1)).2.1

/-- A definition list declaring the path key `test.dat` twice. -/
def defsDup : List ItemDef :=
  [ItemDef.repo (some ".") none false none none none true,
   ItemDef.file (some "test.dat") (some ".") (some "123")
     (GitStatus.added, GitStatus.unmodified) none false none none none false,
   ItemDef.file (some "test.dat") (some ".") (some "456")
     (GitStatus.added, GitStatus.unmodified) none false none none none false]

/-- The resolution state reached by the prefix of `defsDup` before its
duplicate entry. -/
def stDup : ResolveState :=
  match resolveEntries "/tr" cfg0 0 initResolveState (defsDup.take 2) with
  | .ok s => s
  | .error _ => initResolveState

/-- A definition list whose commit command references the path key `nope`,
which no earlier entry defines. -/
def defsUnresolved : List ItemDef :=
  [ItemDef.repo (some ".") none false none none none true,
   ItemDef.commit ["nope"] (some ".") (some "msg1") none]

/-- The resolution state reached by the prefix of `defsUnresolved` before
its command entry. -/
def stUnresolved : ResolveState :=
  match resolveEntries "/tr" cfg0 0 initResolveState (defsUnresolved.take 1) with
  | .ok s => s
  | .error _ => initResolveState

theorem lookupA_updateAssoc {α : Type} (l : List (String × α)) (k : String)
    (g : α → α) (k2 : String) :
    lookupA (updateAssoc l k g) k2 =
      if k2 = k then (lookupA l k2).map g else lookupA l k2 := by
  induction l with
  | nil => by_cases h : k2 = k <;> simp [lookupA, updateAssoc, h]
  | cons p l ih =>
    obtain ⟨k0, v⟩ := p
    have hu : updateAssoc ((k0, v) :: l) k g =
        (if k0 = k then (k0, g v) else (k0, v)) :: updateAssoc l k g := rfl
    rw [hu]
    by_cases h0 : k0 = k
    · rw [if_pos h0]
      by_cases h2 : k2 = k0
      · have hk : k2 = k := h2.trans h0
        simp only [lookupA, if_pos h2, if_pos hk, Option.map_some']
      · have hk : ¬ k2 = k := fun h => h2 (h.trans h0.symm)
        simp only [lookupA, if_neg h2, if_neg hk, ih]
    · rw [if_neg h0]
      by_cases h2 : k2 = k0
      · have hk : ¬ k2 = k := fun h => h0 (h2.symm.trans h)
        simp only [lookupA, if_pos h2, if_neg hk]
      · simp only [lookupA, if_neg h2, ih]

theorem mem_setInsert_self {α : Type} [DecidableEq α] (a : α) (l : List α) :
    a ∈ setInsert a l := by
  unfold setInsert
  split
  · assumption
  · simp

theorem setInsert_idem {α : Type} [DecidableEq α] (a : α) (l : List α) :
    setInsert a (setInsert a l) = setInsert a l :=
  if_pos (mem_setInsert_self a l)

theorem commitFileTransform_idem (c : String × String) (f : ItemFile) :
    commitFileTransform c (commitFileTransform c f) = commitFileTransform c f := by
  simp [commitFileTransform, setInsert_idem]

theorem dropFileTransform_idem (f : ItemFile) :
    dropFileTransform (dropFileTransform f) = dropFileTransform f := rfl

theorem applyCommitRefs_files_notmem (c : String × String) (rk : String) :
    ∀ (refs : List String) (st : Store) (k : String), k ∉ refs →
    lookupA (applyCommitRefs c rk refs st).files k = lookupA st.files k := by
  intro refs
  induction refs with
  | nil => intro st k _; rfl
  | cons k0 ks ih =>
    intro st k h
    have h0 : ¬ k = k0 := fun e => h (by rw [e]; exact List.mem_cons_self k0 ks)
    have hks : k ∉ ks := fun e => h (List.mem_cons_of_mem _ e)
    show lookupA (applyCommitRefs c rk ks (commitRefStep c rk st k0)).files k = _
    rw [ih _ _ hks]
    show lookupA (updateAssoc st.files k0 (commitFileTransform c)) k = _
    rw [lookupA_updateAssoc, if_neg h0]

theorem applyCommitRefs_files_mem (c : String × String) (rk : String) :
    ∀ (refs : List String) (st : Store) (k : String), k ∈ refs →
    lookupA (applyCommitRefs c rk refs st).files k
      = (lookupA st.files k).map (commitFileTransform c) := by
  intro refs
  induction refs with
  | nil => intro st k h; cases h
  | cons k0 ks ih =>
    intro st k h
    show lookupA (applyCommitRefs c rk ks (commitRefStep c rk st k0)).files k = _
    by_cases hks : k ∈ ks
    · rw [ih _ _ hks]
      show (lookupA (updateAssoc st.files k0 (commitFileTransform c)) k).map _ = _
      rw [lookupA_updateAssoc]
      by_cases h0 : k = k0
      · rw [if_pos h0]
        cases hf : lookupA st.files k <;> simp [commitFileTransform_idem]
      · rw [if_neg h0]
    · have h0 : k = k0 := by
        cases h with
        | head => rfl
        | tail _ hmem => exact absurd hmem hks
      rw [applyCommitRefs_files_notmem c rk ks _ k hks]
      show lookupA (updateAssoc st.files k0 (commitFileTransform c)) k = _
      rw [lookupA_updateAssoc, if_pos h0]

theorem applyCommitRefs_repos_proj (c : String × String) (rk : String) :
    ∀ (refs : List String) (st : Store) (rk2 : String),
    (lookupA (applyCommitRefs c rk refs st).repos rk2).map
        (fun r => (r.path, r.commits, r.branches, r.remotes)) =
      (lookupA st.repos rk2).map
        (fun r => (r.path, r.commits, r.branches, r.remotes)) := by
  intro refs
  induction refs with
  | nil => intro st rk2; rfl
  | cons k0 ks ih =>
    intro st rk2
    show (lookupA (applyCommitRefs c rk ks (commitRefStep c rk st k0)).repos rk2).map _ = _
    rw [ih]
    show (lookupA (updateAssoc st.repos rk
      (fun r => { r with items := setInsert k0 r.items })) rk2).map _ = _
    rw [lookupA_updateAssoc]
    by_cases h : rk2 = rk
    · rw [if_pos h]
      cases lookupA st.repos rk2 <;> simp
    · rw [if_neg h]

theorem dropFold_files_notmem :
    ∀ (refs : List String) (st : Store) (k : String), k ∉ refs →
    lookupA (refs.foldl dropRefStep st).files k = lookupA st.files k := by
  intro refs
  induction refs with
  | nil => intro st k _; rfl
  | cons k0 ks ih =>
    intro st k h
    have h0 : ¬ k = k0 := fun e => h (by rw [e]; exact List.mem_cons_self k0 ks)
    have hks : k ∉ ks := fun e => h (List.mem_cons_of_mem _ e)
    show lookupA (ks.foldl dropRefStep (dropRefStep st k0)).files k = _
    rw [ih _ _ hks]
    show lookupA (updateAssoc st.files k0 dropFileTransform) k = _
    rw [lookupA_updateAssoc, if_neg h0]

theorem dropFold_files_mem :
    ∀ (refs : List String) (st : Store) (k : String), k ∈ refs →
    lookupA (refs.foldl dropRefStep st).files k
      = (lookupA st.files k).map dropFileTransform := by
  intro refs
  induction refs with
  | nil => intro st k h; cases h
  | cons k0 ks ih =>
    intro st k h
    show lookupA (ks.foldl dropRefStep (dropRefStep st k0)).files k = _
    by_cases hks : k ∈ ks
    · rw [ih _ _ hks]
      show (lookupA (updateAssoc st.files k0 dropFileTransform) k).map _ = _
      rw [lookupA_updateAssoc]
      by_cases h0 : k = k0
      · rw [if_pos h0]
        cases hf : lookupA st.files k <;> simp [dropFileTransform_idem]
      · rw [if_neg h0]
    · have h0 : k = k0 := by
        cases h with
        | head => rfl
        | tail _ hmem => exact absurd hmem hks
      rw [dropFold_files_notmem ks _ k hks]
      show lookupA (updateAssoc st.files k0 dropFileTransform) k = _
      rw [lookupA_updateAssoc, if_pos h0]

/-- C1: for every file item and every status pair from the 9-symbol
alphabet (all 81 combinations, and regardless of every other stored
field), the derived booleans are exactly: untracked iff both slots
untracked; staged iff the index slot is one of modified, added, deleted,
renamed, copied, typechanged and the worktree slot is unmodified; modified
iff the index slot or the worktree slot is modified; clean iff both slots
are unmodified. -/
theorem claim_C1_status_table (f : ItemFile) :
    (f.is_untracked = true ↔
      (f.state_index = GitStatus.untracked ∧
       f.state_worktree = GitStatus.untracked)) ∧
    (f.is_staged = true ↔
      (f.state_index ∈ [GitStatus.modified, GitStatus.added,
         GitStatus.deleted, GitStatus.renamed, GitStatus.copied,
         GitStatus.typechanged] ∧
       f.state_worktree = GitStatus.unmodified)) ∧
    (f.is_modified = true ↔
      (f.state_index = GitStatus.modified ∨
       f.state_worktree = GitStatus.modified)) ∧
    (f.is_clean = true ↔
      (f.state_index = GitStatus.unmodified ∧
       f.state_worktree = GitStatus.unmodified)) := by
  obtain ⟨p, rk, c, si, sw, cm, sr, lk, ax, ky, cs, cp⟩ := f
  cases si <;> cases sw <;>
    simp [ItemFile.is_untracked, ItemFile.is_staged, ItemFile.is_modified,
      ItemFile.is_clean]

/-- C8 counterexample: the claim states that for every concrete variant
the base-class integrity-check default that raises on invocation is
unreachable; but a method call on a generic Command item dispatches
exactly to that raising base default. -/
theorem claim_C8_counterexample :
    assertIntactRaisesOnInvocation ItemClass.itemCommand = true := rfl

/-- C8 amended: `create` is an abstract-method obligation, but the
integrity check has a runtime-raising base default, which is reachable
precisely on the base class itself and on every variant of the
ItemCommand family; the Repo and File variants (including their
subclasses) dispatch to an override instead. -/
theorem claim_C8_amended (c : ItemClass) :
    assertIntactRaisesOnInvocation c =
      (inheritsFromItemCommand c || decide (c = ItemClass.item)) := by
  cases c <;> rfl

/-- C9: evaluating the transcribed remotes section of
`ItemRepo.assert_intact` on a remote listing with one remote (its fetch
row and its duplicate push row) and the matching stored remote set does
not perform the claimed fetch-row comparison: it raises TypeError, because
the source calls `str.strip` with two arguments. -/
theorem claim_C9_code_behavior :
    assertRemotesCheck "origin /url (fetch)\norigin /url (push)"
      [("origin", "/url")] = Except.error PyExc.typeError := rfl

/-- C3 counterexample: a File entry declaring BOTH a content and a source
URL, where the declared content is the empty string, passes the
constructor validation without any DefinitionError (Python truthiness
treats the empty string as not given). -/
theorem claim_C3_counterexample :
    exceptIsOk (ItemFile.init "/tr/f.dat" "/tr" "." (some "")
      (GitStatus.added, GitStatus.unmodified) none true none
      (some "http://example.com/f.dat") none) = true := rfl

/-- C3 amended: with an empty string treated as not given (Python
truthiness), the constructor raises the both-given or the neither-given
DefinitionError exactly when content and source URL are both given or
both missing; and a resolution error always aborts the build before any
side effect is performed. -/
theorem claim_C3_amended :
    (∀ (path repoPath repoKey : String) (content : Option String)
       (state : GitStatus × GitStatus) (commit_msg : Option String)
       (annexed : Bool) (key src : Option String) (locked : Option Bool),
       pyStartsWith path repoPath = true →
       ((ItemFile.init path repoPath repoKey content state commit_msg annexed
           key src locked = .error .srcAndContent ∨
         ItemFile.init path repoPath repoKey content state commit_msg annexed
           key src locked = .error .neitherSrcNorContent) ↔
        truthyOptStr src = truthyOptStr content)) ∧
    (∀ (oracle : Oracle) (cfg : EngineCfg) (root : String)
       (defs : List ItemDef) (e : DefError),
       resolveDefs root cfg defs = .error e →
       buildTestRepo oracle cfg root defs = .error e) := by
  constructor
  · intro path repoPath repoKey content state commit_msg annexed key src
      locked hsw
    by_cases hs : truthyOptStr src = true <;>
      by_cases hc : truthyOptStr content = true <;>
        simp [ItemFile.init, hsw, hs, hc] <;>
          (repeat' split) <;> simp
  · intro oracle cfg root defs e h
    simp [buildTestRepo, h]

/-- C3 witness: the amended theorem applied at a concrete entry declaring
both a non-empty content and a source URL. -/
theorem claim_C3_witness :
    pyStartsWith "/tr/f.dat" "/tr" = true ∧
    (ItemFile.init "/tr/f.dat" "/tr" "." (some "x")
       (GitStatus.added, GitStatus.unmodified) none true none (some "u") none
       = .error .srcAndContent ∨
     ItemFile.init "/tr/f.dat" "/tr" "." (some "x")
       (GitStatus.added, GitStatus.unmodified) none true none (some "u") none
       = .error .neitherSrcNorContent) :=
  ⟨rfl, (claim_C3_amended.1 "/tr/f.dat" "/tr" "." (some "x")
      (GitStatus.added, GitStatus.unmodified) none true none (some "u") none
      rfl).mpr rfl⟩

/-- C7: a successful Drop-content-command sets content-availability to
false on every referenced file, and the integrity-check guard then
performs no byte comparison of the content for that (annexed) file. -/
theorem claim_C7_drop_no_content_comparison (oracle : Oracle) (st : Store)
    (refs : List String) (cmd : List String) (fkey : String) (f : ItemFile)
    (hmem : fkey ∈ refs) (hf : lookupA st.files fkey = some f)
    (hannex : f.annexed = true) (hrun : oracle.runOk cmd = true) :
    ∃ f', lookupA (itemDropFileCreate oracle st refs cmd).1.files fkey
        = some f' ∧
      f'.content_present = some false ∧
      contentComparisonPerformed f' = false := by
  refine ⟨dropFileTransform f, ?_, rfl, ?_⟩
  · unfold itemDropFileCreate
    rw [if_neg (not_not_intro hrun)]
    show lookupA (refs.foldl dropRefStep st).files fkey = _
    rw [dropFold_files_mem refs st fkey hmem, hf]
    rfl
  · simp [contentComparisonPerformed, dropFileTransform, optBoolTruthy,
      hannex]

/-- C7 witness: the theorem applied to the concrete annexed file `fileB`
(content present) referenced by a concrete drop command. -/
theorem claim_C7_witness :
    ("b.dat" ∈ ["b.dat"]) ∧
    lookupA demoStore.files "b.dat" = some fileB ∧
    fileB.annexed = true ∧
    oracle0.runOk ["git", "annex", "drop", "--", "/tr/b.dat"] = true ∧
    ∃ f', lookupA (itemDropFileCreate oracle0 demoStore ["b.dat"]
        ["git", "annex", "drop", "--", "/tr/b.dat"]).1.files "b.dat"
        = some f' ∧
      f'.content_present = some false ∧
      contentComparisonPerformed f' = false :=
  ⟨by decide, rfl, rfl, rfl,
   claim_C7_drop_no_content_comparison oracle0 demoStore ["b.dat"]
     ["git", "annex", "drop", "--", "/tr/b.dat"] "b.dat" fileB (by decide)
     rfl rfl rfl⟩

/-- C10: executing a Commit-command mutates each referenced file only in
its index slot (set to unmodified) and its commit set (the commit pair is
inserted); every other field, in particular the worktree slot, keeps its
previous value.  This holds regardless of how the branch discovery at the
end of the command turns out. -/
theorem claim_C10_commit_frame (oracle : Oracle) (st : Store)
    (cwd rk : String) (refs : List String) (cmd : List String)
    (fkey : String) (f : ItemFile) (sha msg : String)
    (hmem : fkey ∈ refs) (hf : lookupA st.files fkey = some f)
    (hrun : oracle.runOk cmd = true)
    (hlast : oracle.lastCommit cwd = some (sha, msg)) :
    lookupA (itemCommitCreate oracle st cwd rk refs cmd).1.files fkey =
      some { f with state_index := GitStatus.unmodified,
                    commits := setInsert (sha, msg) f.commits } := by
  have hfiles : ∀ st1 : Store, st1.files = st.files →
      lookupA (applyCommitRefs (sha, msg) rk refs st1).files fkey =
        some (commitFileTransform (sha, msg) f) := by
    intro st1 h1
    rw [applyCommitRefs_files_mem _ _ refs _ fkey hmem, h1, hf]
    rfl
  unfold itemCommitCreate
  rw [if_neg (not_not_intro hrun), hlast]
  dsimp only
  cases hbr : oracle.branchesOf cwd sha with
  | none => exact hfiles _ rfl
  | some branches =>
    dsimp only
    by_cases hlen : 2 ≤ branches.length
    · rw [if_pos hlen]
      exact hfiles _ rfl
    · rw [if_neg hlen]
      cases branches with
      | nil => exact hfiles _ rfl
      | cons b bs => exact hfiles _ rfl

/-- C10 witness: the frame theorem applied to the concrete staged file
`fileA` referenced by a concrete commit command. -/
theorem claim_C10_witness :
    ("a.dat" ∈ ["a.dat"]) ∧
    lookupA demoStore.files "a.dat" = some fileA ∧
    oracle0.runOk ["git", "--work-tree=.", "commit", "-m", "\"m1\"", "--",
      "/tr/a.dat"] = true ∧
    oracle0.lastCommit "/tr" = some ("sha1", "m1") ∧
    lookupA (itemCommitCreate oracle0 demoStore "/tr" "." ["a.dat"]
        ["git", "--work-tree=.", "commit", "-m", "\"m1\"", "--",
         "/tr/a.dat"]).1.files "a.dat" =
      some { fileA with state_index := GitStatus.unmodified,
                        commits := setInsert ("sha1", "m1") fileA.commits } :=
  ⟨by decide, rfl, rfl, rfl,
   claim_C10_commit_frame oracle0 demoStore "/tr" "." ["a.dat"]
     ["git", "--work-tree=.", "commit", "-m", "\"m1\"", "--", "/tr/a.dat"]
     "a.dat" fileA "sha1" "m1" (by decide) rfl rfl rfl⟩

/-- C2: for a file in state (added, unmodified) referenced by a
Commit-command, a successful run moves the status pair to
(unmodified, unmodified), inserts the same (SHA, message) pair into the
file commit set and into the repo commit set, and records on the repo
exactly the single branch the commit landed on; when the commit is found
in more than one branch, a CreationError is raised instead. -/
theorem claim_C2_commit_command (oracle : Oracle) (st : Store)
    (cwd rk fkey : String) (refs : List String) (cmd : List String)
    (f : ItemFile) (r : ItemRepo) (sha msg b : String)
    (hmem : fkey ∈ refs)
    (hf : lookupA st.files fkey = some f)
    (hr : lookupA st.repos rk = some r)
    (hidx : f.state_index = GitStatus.added)
    (hwt : f.state_worktree = GitStatus.unmodified)
    (hrun : oracle.runOk cmd = true)
    (hlast : oracle.lastCommit cwd = some (sha, msg)) :
    (oracle.branchesOf cwd sha = some [b] →
       (itemCommitCreate oracle st cwd rk refs cmd).2.2 = none ∧
       (∃ f', lookupA (itemCommitCreate oracle st cwd rk refs cmd).1.files
            fkey = some f' ∧
          f'.state_index = GitStatus.unmodified ∧
          f'.state_worktree = GitStatus.unmodified ∧
          (sha, msg) ∈ f'.commits) ∧
       (∃ r', lookupA (itemCommitCreate oracle st cwd rk refs cmd).1.repos
            rk = some r' ∧
          (sha, msg) ∈ r'.commits ∧
          r'.branches = setInsert b r.branches)) ∧
    (∀ bs, oracle.branchesOf cwd sha = some bs → 2 ≤ bs.length →
       ∃ m, (itemCommitCreate oracle st cwd rk refs cmd).2.2
         = some (CreateErr.creation m)) := by
  have hst1 : lookupA (updateAssoc st.repos rk
      (fun r0 => { r0 with commits := setInsert (sha, msg) r0.commits })) rk
      = some { r with commits := setInsert (sha, msg) r.commits } := by
    rw [lookupA_updateAssoc, if_pos rfl, hr]
    rfl
  have hfiles : ∀ st1 : Store, st1.files = st.files →
      lookupA (applyCommitRefs (sha, msg) rk refs st1).files fkey =
        some (commitFileTransform (sha, msg) f) := by
    intro st1 h1
    rw [applyCommitRefs_files_mem _ _ refs _ fkey hmem, h1, hf]
    rfl
  have hrepo2 : ∀ st1 : Store,
      st1.repos = updateAssoc st.repos rk
        (fun r0 => { r0 with commits := setInsert (sha, msg) r0.commits }) →
      ∃ r2, lookupA (applyCommitRefs (sha, msg) rk refs st1).repos rk
          = some r2 ∧
        r2.commits = setInsert (sha, msg) r.commits ∧
        r2.branches = r.branches := by
    intro st1 h1
    have hproj := applyCommitRefs_repos_proj (sha, msg) rk refs st1 rk
    rw [h1, hst1] at hproj
    obtain ⟨r2, hr2, hpr2⟩ := Option.map_eq_some'.mp hproj
    simp only [Option.map_some', Option.some.injEq, Prod.mk.injEq] at hpr2
    exact ⟨r2, hr2, hpr2.2.1, hpr2.2.2.1⟩
  constructor
  · intro hb
    unfold itemCommitCreate
    rw [if_neg (not_not_intro hrun), hlast]
    dsimp only
    rw [hb]
    dsimp only
    rw [if_neg (by simp : ¬ 2 ≤ ([b] : List String).length)]
    obtain ⟨r2, hr2, hc2, hb2⟩ := hrepo2
      (Store.mk st.files (updateAssoc st.repos rk
        (fun r0 => { r0 with commits := setInsert (sha, msg) r0.commits })))
      rfl
    refine ⟨rfl, ⟨commitFileTransform (sha, msg) f, hfiles _ rfl, rfl, hwt,
      mem_setInsert_self _ _⟩,
      ⟨{ r2 with branches := setInsert b r2.branches }, ?_, ?_, ?_⟩⟩
    · show lookupA (updateAssoc _ rk _) rk = _
      rw [lookupA_updateAssoc, if_pos rfl, hr2]
      rfl
    · show (sha, msg) ∈ r2.commits
      rw [hc2]
      exact mem_setInsert_self _ _
    · show setInsert b r2.branches = setInsert b r.branches
      rw [hb2]
  · intro bs hbs hlen
    unfold itemCommitCreate
    rw [if_neg (not_not_intro hrun), hlast]
    dsimp only
    rw [hbs]
    dsimp only
    rw [if_pos hlen]
    exact ⟨_, rfl⟩

/-- C2 witness: the theorem applied to the concrete staged file `fileA`,
the concrete repo `repo0` and a single discovered branch. -/
theorem claim_C2_witness :
    ("a.dat" ∈ ["a.dat"]) ∧
    lookupA demoStore.files "a.dat" = some fileA ∧
    lookupA demoStore.repos "." = some repo0 ∧
    oracle0.branchesOf "/tr" "sha1" = some ["master"] ∧
    ((itemCommitCreate oracle0 demoStore "/tr" "." ["a.dat"]
        ["git", "--work-tree=.", "commit", "-m", "\"m1\"", "--",
         "/tr/a.dat"]).2.2 = none ∧
     (∃ f', lookupA (itemCommitCreate oracle0 demoStore "/tr" "." ["a.dat"]
          ["git", "--work-tree=.", "commit", "-m", "\"m1\"", "--",
           "/tr/a.dat"]).1.files "a.dat" = some f' ∧
        f'.state_index = GitStatus.unmodified ∧
        f'.state_worktree = GitStatus.unmodified ∧
        ("sha1", "m1") ∈ f'.commits) ∧
     (∃ r', lookupA (itemCommitCreate oracle0 demoStore "/tr" "." ["a.dat"]
          ["git", "--work-tree=.", "commit", "-m", "\"m1\"", "--",
           "/tr/a.dat"]).1.repos "." = some r' ∧
        ("sha1", "m1") ∈ r'.commits ∧
        r'.branches = setInsert "master" repo0.branches)) :=
  ⟨by decide, rfl, rfl, rfl,
   (claim_C2_commit_command oracle0 demoStore "/tr" "." "a.dat" ["a.dat"]
      ["git", "--work-tree=.", "commit", "-m", "\"m1\"", "--", "/tr/a.dat"]
      fileA repo0 "sha1" "m1" "master" (by decide) rfl rfl rfl rfl rfl
      rfl).1 rfl⟩

theorem resolveRefList_unresolved (idx : Nat) (st : ResolveState) :
    ∀ keys : List String,
    (∃ k, k ∈ keys ∧ lookupA st.itemsIndex k = none) →
    ∃ k, k ∈ keys ∧ lookupA st.itemsIndex k = none ∧
      resolveRefList idx st keys = .error (.refBeforeDefinition idx k) := by
  intro keys
  induction keys with
  | nil => rintro ⟨k, hk, _⟩; cases hk
  | cons k0 ks ih =>
    rintro ⟨k, hk, hnone⟩
    by_cases h0 : (lookupA st.itemsIndex k0).isSome = true
    · have hk' : k ∈ ks := by
        cases hk with
        | head => simp [hnone] at h0
        | tail _ hmem => exact hmem
      obtain ⟨k', h1, h2, h3⟩ := ih ⟨k, hk', hnone⟩
      refine ⟨k', List.mem_cons_of_mem _ h1, h2, ?_⟩
      unfold resolveRefList
      rw [if_pos h0, h3]
      rfl
    · have hn0 : lookupA st.itemsIndex k0 = none := by
        cases hv : lookupA st.itemsIndex k0 with
        | none => rfl
        | some s => rw [hv] at h0; simp at h0
      refine ⟨k0, List.mem_cons_self _ _, hn0, ?_⟩
      unfold resolveRefList
      rw [if_neg h0]

theorem resolveCommandCommon_unresolved (root : String) (idx : Nat)
    (st : ResolveState) (itemRefs : List String) (cwd repo : Option String)
    (hcr : truthyOptStr cwd = true ∨ truthyOptStr repo = true)
    (hun : ∃ k, k ∈ (if truthyOptStr repo then [repo.getD ""] else [])
        ++ itemRefs ∧ lookupA st.itemsIndex k = none) :
    ∃ k, k ∈ (if truthyOptStr repo then [repo.getD ""] else []) ++ itemRefs ∧
      lookupA st.itemsIndex k = none ∧
      resolveCommandCommon root idx st itemRefs cwd repo
        = .error (.refBeforeDefinition idx k) := by
  have hnm : ¬ (¬ truthyOptStr cwd = true ∧ ¬ truthyOptStr repo = true) := by
    rcases hcr with h | h <;> simp [h]
  by_cases hrt : truthyOptStr repo = true
  · obtain ⟨r0, hr0⟩ : ∃ s, repo = some s := by
      cases repo with
      | none => simp [truthyOptStr] at hrt
      | some s => exact ⟨s, rfl⟩
    subst hr0
    by_cases hl : (lookupA st.itemsIndex r0).isSome = true
    · obtain ⟨k, hk, hnone⟩ := hun
      have hk' : k ∈ itemRefs := by
        rcases List.mem_append.mp hk with h | h
        · rw [if_pos hrt] at h
          simp at h
          subst h
          simp [hnone] at hl
        · exact h
      obtain ⟨k', h1, h2, h3⟩ :=
        resolveRefList_unresolved idx st itemRefs ⟨k, hk', hnone⟩
      refine ⟨k', List.mem_append_right _ h1, h2, ?_⟩
      unfold resolveCommandCommon
      rw [if_neg hnm]
      try dsimp only
      rw [if_pos hrt]
      try dsimp only
      rw [if_pos hrt]
      try dsimp only
      rw [if_pos hl]
      try dsimp only
      rw [h3]
    · have hn0 : lookupA st.itemsIndex r0 = none := by
        cases hv : lookupA st.itemsIndex r0 with
        | none => rfl
        | some s => rw [hv] at hl; simp at hl
      refine ⟨r0, ?_, hn0, ?_⟩
      · apply List.mem_append_left
        rw [if_pos hrt]
        simp
      · unfold resolveCommandCommon
        rw [if_neg hnm]
        try dsimp only
        rw [if_pos hrt]
        try dsimp only
        rw [if_pos hrt]
        try dsimp only
        rw [if_neg hl]
  · have hcwd : truthyOptStr cwd = true := by
      rcases hcr with h | h
      · exact h
      · exact absurd h hrt
    obtain ⟨c0, hc0⟩ : ∃ s, cwd = some s := by
      cases cwd with
      | none => simp [truthyOptStr] at hcwd
      | some s => exact ⟨s, rfl⟩
    subst hc0
    obtain ⟨k, hk, hnone⟩ := hun
    have hk' : k ∈ itemRefs := by
      rw [if_neg hrt] at hk
      simpa using hk
    obtain ⟨k', h1, h2, h3⟩ :=
      resolveRefList_unresolved idx st itemRefs ⟨k, hk', hnone⟩
    refine ⟨k', ?_, h2, ?_⟩
    · rw [if_neg hrt]
      simpa using h1
    · unfold resolveCommandCommon
      rw [if_neg hnm]
      try dsimp only
      rw [if_neg hrt]
      try dsimp only
      cases hlc : lookupA st.itemsIndex c0 with
      | none =>
        try dsimp only
        rw [h3]
        simp
      | some s =>
        cases s with
        | repo =>
          try dsimp only
          rw [if_pos hcwd]
          try dsimp only
          rw [if_pos (by rw [hlc]; rfl : (lookupA st.itemsIndex c0).isSome = true)]
          try dsimp only
          rw [h3]
        | file =>
          try dsimp only
          rw [h3]
          simp

theorem finishFileEntry_itemsIndex (st : ResolveState) (rPath : String)
    (idx : Nat) (res : Except ItemError ItemFile) (st' : ResolveState)
    (h : finishFileEntry st rPath idx res = .ok st') :
    st'.itemsIndex = (rPath, ItemSort.file) :: st.itemsIndex := by
  cases res with
  | error e => cases h
  | ok f => cases h; rfl

theorem resolveGenericCommandEntry_itemsIndex (root : String) (idx : Nat)
    (st : ResolveState) (cmd itemRefs : List String)
    (cwd repo : Option String) (st' : ResolveState)
    (h : resolveGenericCommandEntry root idx st cmd itemRefs cwd repo
      = .ok st') :
    st'.itemsIndex = st.itemsIndex := by
  unfold resolveGenericCommandEntry at h
  repeat' split at h
  all_goals cases h
  all_goals rfl

theorem resolveCommitEntry_itemsIndex (root : String) (idx : Nat)
    (st : ResolveState) (itemRefs : List String)
    (cwd msg repo : Option String) (st' : ResolveState)
    (h : resolveCommitEntry root idx st itemRefs cwd msg repo = .ok st') :
    st'.itemsIndex = st.itemsIndex := by
  unfold resolveCommitEntry at h
  repeat' split at h
  all_goals cases h
  all_goals rfl

theorem resolveDropEntry_itemsIndex (root : String) (idx : Nat)
    (st : ResolveState) (itemRefs : List String)
    (cwd repo : Option String) (st' : ResolveState)
    (h : resolveDropEntry root idx st itemRefs cwd repo = .ok st') :
    st'.itemsIndex = st.itemsIndex := by
  unfold resolveDropEntry at h
  repeat' split at h
  all_goals cases h
  all_goals rfl

theorem resolveRepoEntry_itemsIndex (root : String) (cfg : EngineCfg)
    (idx : Nat) (st : ResolveState) (p src : Option String) (annex : Bool)
    (av : Option Nat) (ad ai : Option Bool) (isSelf : Bool)
    (st' : ResolveState)
    (h : resolveRepoEntry root cfg idx st p src annex av ad ai isSelf
      = .ok st') :
    ∃ rPath, effectivePathKey false p = some rPath ∧
      st'.itemsIndex = (rPath, ItemSort.repo) :: st.itemsIndex := by
  unfold resolveRepoEntry at h
  repeat' split at h
  all_goals cases h
  all_goals exact ⟨_, by assumption, rfl⟩

theorem resolveFileEntry_itemsIndex (root : String) (idx : Nat)
    (st : ResolveState) (p repoRef content : Option String)
    (state : GitStatus × GitStatus) (cm : Option String) (ax : Bool)
    (ky src : Option String) (locked : Option Bool) (isInfo : Bool)
    (st' : ResolveState)
    (h : resolveFileEntry root idx st p repoRef content state cm ax ky src
      locked isInfo = .ok st') :
    ∃ rPath, effectivePathKey isInfo p = some rPath ∧
      st'.itemsIndex = (rPath, ItemSort.file) :: st.itemsIndex := by
  unfold resolveFileEntry at h
  repeat' split at h
  all_goals first
    | cases h
    | exact ⟨_, by assumption, finishFileEntry_itemsIndex _ _ _ _ _ h⟩

theorem resolveEntry_itemsIndex_shape (root : String) (cfg : EngineCfg)
    (idx : Nat) (st : ResolveState) (d : ItemDef) (st' : ResolveState)
    (h : resolveEntry root cfg idx st d = .ok st') :
    st'.itemsIndex = st.itemsIndex ∨
      ∃ kv, st'.itemsIndex = kv :: st.itemsIndex := by
  cases d with
  | repo p src annex av ad ai isSelf =>
    obtain ⟨rP, _, he⟩ := resolveRepoEntry_itemsIndex root cfg idx st p src
      annex av ad ai isSelf st' h
    exact Or.inr ⟨_, he⟩
  | file p r c stt cm ax ky s lk info =>
    obtain ⟨rP, _, he⟩ := resolveFileEntry_itemsIndex root idx st p r c stt
      cm ax ky s lk info st' h
    exact Or.inr ⟨_, he⟩
  | command cmd its cwd r =>
    exact Or.inl (resolveGenericCommandEntry_itemsIndex root idx st cmd its
      cwd r st' h)
  | commit its cwd m r =>
    exact Or.inl (resolveCommitEntry_itemsIndex root idx st its cwd m r
      st' h)
  | dropFile its cwd r =>
    exact Or.inl (resolveDropEntry_itemsIndex root idx st its cwd r st' h)

theorem resolveEntry_mono (root : String) (cfg : EngineCfg) (idx : Nat)
    (st : ResolveState) (d : ItemDef) (st' : ResolveState) (k : String)
    (h : resolveEntry root cfg idx st d = .ok st')
    (hk : (lookupA st.itemsIndex k).isSome = true) :
    (lookupA st'.itemsIndex k).isSome = true := by
  rcases resolveEntry_itemsIndex_shape root cfg idx st d st' h with he | ⟨kv, he⟩
  · rw [he]; exact hk
  · rw [he]
    obtain ⟨k0, v⟩ := kv
    by_cases h0 : k = k0 <;> simp [lookupA, h0, hk]

theorem resolveEntry_inserts_key (root : String) (cfg : EngineCfg)
    (idx : Nat) (st : ResolveState) (d : ItemDef) (st' : ResolveState)
    (k : String) (hk : d.pathKey = some k)
    (h : resolveEntry root cfg idx st d = .ok st') :
    (lookupA st'.itemsIndex k).isSome = true := by
  cases d with
  | repo p src annex av ad ai isSelf =>
    obtain ⟨rP, hp, he⟩ := resolveRepoEntry_itemsIndex root cfg idx st p src
      annex av ad ai isSelf st' h
    have hpk : effectivePathKey false p = some k := hk
    rw [hp] at hpk
    cases hpk
    rw [he]
    simp [lookupA]
  | file p r c stt cm ax ky s lk info =>
    obtain ⟨rP, hp, he⟩ := resolveFileEntry_itemsIndex root idx st p r c stt
      cm ax ky s lk info st' h
    have hpk : effectivePathKey info p = some k := hk
    rw [hp] at hpk
    cases hpk
    rw [he]
    simp [lookupA]
  | command cmd its cwd r => simp [ItemDef.pathKey] at hk
  | commit its cwd m r => simp [ItemDef.pathKey] at hk
  | dropFile its cwd r => simp [ItemDef.pathKey] at hk

theorem resolveEntry_duplicate (root : String) (cfg : EngineCfg) (idx : Nat)
    (st : ResolveState) (d : ItemDef) (k : String)
    (hk : d.pathKey = some k)
    (hmem : (lookupA st.itemsIndex k).isSome = true) :
    resolveEntry root cfg idx st d = .error (.duplicatePath idx k) := by
  cases d with
  | repo p src annex av ad ai isSelf =>
    have hp : effectivePathKey false p = some k := hk
    show resolveRepoEntry root cfg idx st p src annex av ad ai isSelf = _
    unfold resolveRepoEntry
    rw [hp]
    try dsimp only
    rw [if_pos hmem]
  | file p r c stt cm ax ky s lk info =>
    have hp : effectivePathKey info p = some k := hk
    show resolveFileEntry root idx st p r c stt cm ax ky s lk info = _
    unfold resolveFileEntry
    rw [hp]
    try dsimp only
    rw [if_pos hmem]
  | command cmd its cwd r => simp [ItemDef.pathKey] at hk
  | commit its cwd m r => simp [ItemDef.pathKey] at hk
  | dropFile its cwd r => simp [ItemDef.pathKey] at hk

theorem resolveEntries_mono (root : String) (cfg : EngineCfg) :
    ∀ (xs : List ItemDef) (n : Nat) (st st' : ResolveState) (k : String),
    resolveEntries root cfg n st xs = .ok st' →
    (lookupA st.itemsIndex k).isSome = true →
    (lookupA st'.itemsIndex k).isSome = true := by
  intro xs
  induction xs with
  | nil =>
    intro n st st' k h hk
    cases h
    exact hk
  | cons d ds ih =>
    intro n st st' k h hk
    unfold resolveEntries at h
    cases he : resolveEntry root cfg n st d with
    | error e => rw [he] at h; cases h
    | ok st1 =>
      rw [he] at h
      exact ih (n + 1) st1 st' k h
        (resolveEntry_mono root cfg n st d st1 k he hk)

theorem resolveEntries_key_present (root : String) (cfg : EngineCfg) :
    ∀ (xs : List ItemDef) (i n : Nat) (st st' : ResolveState)
      (di : ItemDef) (k : String),
    resolveEntries root cfg n st xs = .ok st' →
    xs.get? i = some di →
    di.pathKey = some k →
    (lookupA st'.itemsIndex k).isSome = true := by
  intro xs
  induction xs with
  | nil => intro i n st st' di k _ hg _; cases hg
  | cons d ds ih =>
    intro i n st st' di k h hg hpk
    unfold resolveEntries at h
    cases he : resolveEntry root cfg n st d with
    | error e => rw [he] at h; cases h
    | ok st1 =>
      rw [he] at h
      cases i with
      | zero =>
        cases hg
        exact resolveEntries_mono root cfg ds (n + 1) st1 st' k h
          (resolveEntry_inserts_key root cfg n st d st1 k hpk he)
      | succ i => exact ih i (n + 1) st1 st' di k h hg hpk

theorem resolveEntries_cons (root : String) (cfg : EngineCfg) (n : Nat)
    (st : ResolveState) (d : ItemDef) (ds : List ItemDef) :
    resolveEntries root cfg n st (d :: ds) =
      (match resolveEntry root cfg n st d with
       | .error e => .error e
       | .ok st1 => resolveEntries root cfg (n + 1) st1 ds) := by
  conv_lhs => unfold resolveEntries

theorem resolveEntries_prefix_split (root : String) (cfg : EngineCfg) :
    ∀ (xs : List ItemDef) (j n : Nat) (st st1 : ResolveState) (d : ItemDef),
    resolveEntries root cfg n st (xs.take j) = .ok st1 →
    xs.get? j = some d →
    resolveEntries root cfg n st xs =
      (match resolveEntry root cfg (n + j) st1 d with
       | .error e => .error e
       | .ok st2 => resolveEntries root cfg (n + j + 1) st2 (xs.drop (j + 1))) := by
  intro xs
  induction xs with
  | nil => intro j n st st1 d _ hg; cases hg
  | cons x rest ih =>
    intro j n st st1 d hpre hg
    cases j with
    | zero =>
      rw [List.take_zero] at hpre
      cases hpre
      cases hg
      rfl
    | succ j =>
      rw [List.take_succ_cons] at hpre
      rw [resolveEntries_cons] at hpre ⊢
      cases he : resolveEntry root cfg n st x with
      | error e =>
        rw [he] at hpre
        dsimp only at hpre
        cases hpre
      | ok stx =>
        rw [he] at hpre
        dsimp only at hpre
        dsimp only
        have hstep := ih j (n + 1) stx st1 d hpre hg
        rw [hstep]
        have hn : n + 1 + j = n + (j + 1) := by omega
        rw [hn]
        simp only [List.drop_succ_cons]

theorem resolveEntries_prefix_error (root : String) (cfg : EngineCfg) :
    ∀ (xs : List ItemDef) (j n : Nat) (st : ResolveState) (e : DefError),
    resolveEntries root cfg n st (xs.take j) = .error e →
    resolveEntries root cfg n st xs = .error e := by
  intro xs
  induction xs with
  | nil =>
    intro j n st e h
    rw [List.take_nil] at h
    cases h
  | cons x rest ih =>
    intro j n st e h
    cases j with
    | zero => rw [List.take_zero] at h; cases h
    | succ j =>
      rw [List.take_succ_cons] at h
      rw [resolveEntries_cons] at h ⊢
      cases he : resolveEntry root cfg n st x with
      | error e' =>
        rw [he] at h
        dsimp only at h ⊢
        exact h
      | ok stx =>
        rw [he] at h
        dsimp only at h ⊢
        exact ih j (n + 1) stx e h

/-- C4: a definition list in which two Repo/File entries declare the same
effective path key never resolves: resolution always raises some
DefinitionError, and whenever the entries before the second occurrence
resolve cleanly the raised error is precisely the duplicate-path error
carrying the second occurrence's index and the key, wherever in the list
the two occurrences sit. -/
theorem claim_C4_duplicate_path (root : String) (cfg : EngineCfg)
    (defs : List ItemDef) (i j : Nat) (di dj : ItemDef) (k : String)
    (hij : i < j) (hi : defs.get? i = some di) (hj : defs.get? j = some dj)
    (hpi : di.pathKey = some k) (hpj : dj.pathKey = some k) :
    (∃ e, resolveDefs root cfg defs = .error e) ∧
    (∀ st, resolveEntries root cfg 0 initResolveState (defs.take j) = .ok st →
       resolveDefs root cfg defs = .error (.duplicatePath j k)) := by
  have hpart2 : ∀ st,
      resolveEntries root cfg 0 initResolveState (defs.take j) = .ok st →
      resolveDefs root cfg defs = .error (.duplicatePath j k) := by
    intro st hpre
    have hti : (defs.take j).get? i = some di := by
      rw [List.get?_take hij]
      exact hi
    have hkp := resolveEntries_key_present root cfg (defs.take j) i 0
      initResolveState st di k hpre hti hpi
    have hdup := resolveEntry_duplicate root cfg j st dj k hpj hkp
    have hsplit := resolveEntries_prefix_split root cfg defs j 0
      initResolveState st dj hpre hj
    have h0j : (0 : Nat) + j = j := by omega
    rw [h0j] at hsplit
    rw [hdup] at hsplit
    unfold resolveDefs
    rw [hsplit]
  refine ⟨?_, hpart2⟩
  cases hpre : resolveEntries root cfg 0 initResolveState (defs.take j) with
  | error e =>
    refine ⟨e, ?_⟩
    unfold resolveDefs
    rw [resolveEntries_prefix_error root cfg defs j 0 initResolveState e hpre]
  | ok st => exact ⟨_, hpart2 st hpre⟩

/-- C4 witness: the theorem applied to a concrete definition list whose
third entry re-declares the path key of the second. -/
theorem claim_C4_witness :
    resolveEntries "/tr" cfg0 0 initResolveState (defsDup.take 2)
      = .ok stDup ∧
    resolveDefs "/tr" cfg0 defsDup = .error (.duplicatePath 2 "test.dat") :=
  ⟨rfl,
   (claim_C4_duplicate_path "/tr" cfg0 defsDup 1 2
      (ItemDef.file (some "test.dat") (some ".") (some "123")
        (GitStatus.added, GitStatus.unmodified) none false none none none
        false)
      (ItemDef.file (some "test.dat") (some ".") (some "456")
        (GitStatus.added, GitStatus.unmodified) none false none none none
        false)
      "test.dat" (by omega) rfl rfl rfl rfl).2 stDup rfl⟩

/-- C5: a Command entry that references, in its `item` or `repo`
parameter, a path key no earlier entry defines, makes resolution raise the
DefinitionError naming that entry's index and an unresolved key.  Only the
path index built from the earlier entries is consulted, so entries can
only reference earlier entries. -/
theorem claim_C5_unresolved_reference (root : String) (cfg : EngineCfg)
    (defs : List ItemDef) (j : Nat) (dj : ItemDef) (st : ResolveState)
    (hj : defs.get? j = some dj)
    (hcmd : dj.isCommandDef = true)
    (hcr : truthyOptStr dj.cwdArg = true ∨ truthyOptStr dj.repoArg = true)
    (hpre : resolveEntries root cfg 0 initResolveState (defs.take j) = .ok st)
    (hun : ∃ k, k ∈ dj.commandRefKeys ∧ lookupA st.itemsIndex k = none) :
    ∃ k, k ∈ dj.commandRefKeys ∧ lookupA st.itemsIndex k = none ∧
      resolveDefs root cfg defs = .error (.refBeforeDefinition j k) := by
  have hsplit := resolveEntries_prefix_split root cfg defs j 0
    initResolveState st dj hpre hj
  have h0j : (0 : Nat) + j = j := by omega
  rw [h0j] at hsplit
  cases dj with
  | repo p src annex av ad ai isSelf => simp [ItemDef.isCommandDef] at hcmd
  | file p r c stt cm ax ky s lk info => simp [ItemDef.isCommandDef] at hcmd
  | command cmd its cwd repo =>
    obtain ⟨k, h1, h2, h3⟩ :=
      resolveCommandCommon_unresolved root j st its cwd repo hcr hun
    refine ⟨k, h1, h2, ?_⟩
    have hentry : resolveEntry root cfg j st (ItemDef.command cmd its cwd repo)
        = .error (.refBeforeDefinition j k) := by
      show resolveGenericCommandEntry root j st cmd its cwd repo = _
      unfold resolveGenericCommandEntry
      rw [h3]
    rw [hentry] at hsplit
    unfold resolveDefs
    rw [hsplit]
  | commit its cwd m repo =>
    obtain ⟨k, h1, h2, h3⟩ :=
      resolveCommandCommon_unresolved root j st its cwd repo hcr hun
    refine ⟨k, h1, h2, ?_⟩
    have hentry : resolveEntry root cfg j st (ItemDef.commit its cwd m repo)
        = .error (.refBeforeDefinition j k) := by
      show resolveCommitEntry root j st its cwd m repo = _
      unfold resolveCommitEntry
      rw [h3]
    rw [hentry] at hsplit
    unfold resolveDefs
    rw [hsplit]
  | dropFile its cwd repo =>
    obtain ⟨k, h1, h2, h3⟩ :=
      resolveCommandCommon_unresolved root j st its cwd repo hcr hun
    refine ⟨k, h1, h2, ?_⟩
    have hentry : resolveEntry root cfg j st (ItemDef.dropFile its cwd repo)
        = .error (.refBeforeDefinition j k) := by
      show resolveDropEntry root j st its cwd repo = _
      unfold resolveDropEntry
      rw [h3]
    rw [hentry] at hsplit
    unfold resolveDefs
    rw [hsplit]

/-- C5 witness: the theorem applied to a concrete definition list whose
commit command references the undefined path key `nope`. -/
theorem claim_C5_witness :
    ∃ k, k ∈ (ItemDef.commit ["nope"] (some ".") (some "msg1")
        none).commandRefKeys ∧
      lookupA stUnresolved.itemsIndex k = none ∧
      resolveDefs "/tr" cfg0 defsUnresolved
        = .error (.refBeforeDefinition 1 k) :=
  claim_C5_unresolved_reference "/tr" cfg0 defsUnresolved 1
    (ItemDef.commit ["nope"] (some ".") (some "msg1") none) stUnresolved
    rfl rfl (Or.inl rfl) rfl ⟨"nope", by decide, rfl⟩

/-- C6: the materialization loop runs `create()` on the execution list in
declaration order; when the entries before index `j` all succeed and the
entry at `j` fails, the loop stops there, the failure is re-raised wrapped
with the offending index, the store keeps every mutation performed up to
and including the failing entry (no rollback), the trace is exactly the
prefix effects followed by the failing entry's effects, and no later entry
is materialized. -/
theorem claim_C6_ordered_materialization (oracle : Oracle) (cfg : EngineCfg)
    (execution : List ExecItem) (j : Nat) (it : ExecItem)
    (st0 st1 st2 : Store) (effs effs2 : List Effect) (e : CreateErr)
    (hpre : createLoop oracle cfg 0 st0 (execution.take j)
      = (st1, effs, none))
    (hj : execution.get? j = some it)
    (hfail : createItem oracle cfg st1 it = (st2, effs2, some e)) :
    createLoop oracle cfg 0 st0 execution
      = (st2, effs ++ effs2, some (wrapCreateErr j e)) := by
  suffices hgen : ∀ (xs : List ExecItem) (j n : Nat) (st0 st1 st2 : Store)
      (effs effs2 : List Effect) (it : ExecItem) (e : CreateErr),
      createLoop oracle cfg n st0 (xs.take j) = (st1, effs, none) →
      xs.get? j = some it →
      createItem oracle cfg st1 it = (st2, effs2, some e) →
      createLoop oracle cfg n st0 xs
        = (st2, effs ++ effs2, some (wrapCreateErr (n + j) e)) by
    have h := hgen execution j 0 st0 st1 st2 effs effs2 it e hpre hj hfail
    simpa using h
  intro xs
  induction xs with
  | nil => intro j n st0 st1 st2 effs effs2 it e _ hg _; cases hg
  | cons x rest ih =>
    intro j n st0 st1 st2 effs effs2 it e hpre hg hfail
    cases j with
    | zero =>
      have h1 : st0 = st1 := congrArg (fun p => p.1) hpre
      have h2 : ([] : List Effect) = effs := congrArg (fun p => p.2.1) hpre
      cases hg
      rw [← h1] at hfail
      show (match createItem oracle cfg st0 x with
        | (stA, effsA, some eA) => (stA, effsA, some (wrapCreateErr n eA))
        | (stA, effsA, none) =>
          match createLoop oracle cfg (n + 1) stA rest with
          | (stB, effsB, r) => (stB, effsA ++ effsB, r)) = _
      rw [hfail]
      rw [← h2]
      rfl
    | succ j =>
      rw [List.take_succ_cons] at hpre
      show (match createItem oracle cfg st0 x with
        | (stA, effsA, some eA) => (stA, effsA, some (wrapCreateErr n eA))
        | (stA, effsA, none) =>
          match createLoop oracle cfg (n + 1) stA rest with
          | (stB, effsB, r) => (stB, effsA ++ effsB, r)) = _
      have hpre' : (match createItem oracle cfg st0 x with
          | (stA, effsA, some eA) => (stA, effsA, some (wrapCreateErr n eA))
          | (stA, effsA, none) =>
            match createLoop oracle cfg (n + 1) stA (rest.take j) with
            | (stB, effsB, r) => (stB, effsA ++ effsB, r))
          = (st1, effs, none) := hpre
      cases hci : createItem oracle cfg st0 x with
      | mk stx p =>
        obtain ⟨ex, er⟩ := p
        rw [hci] at hpre'
        cases er with
        | some e' =>
          dsimp only at hpre'
          have := congrArg (fun p => p.2.2) hpre'
          simp at this
        | none =>
          dsimp only at hpre' ⊢
          cases hrec : createLoop oracle cfg (n + 1) stx (rest.take j) with
          | mk sA q =>
            obtain ⟨eA, rA⟩ := q
            rw [hrec] at hpre'
            dsimp only at hpre'
            have hs : sA = st1 := congrArg (fun p => p.1) hpre'
            have he2 : ex ++ eA = effs := congrArg (fun p => p.2.1) hpre'
            have hr : rA = none := congrArg (fun p => p.2.2) hpre'
            rw [hs, hr] at hrec
            have hstep := ih j (n + 1) stx st1 st2 eA effs2 it e hrec hg hfail
            rw [hstep]
            rw [← he2, List.append_assoc]
            have hn : n + 1 + j = n + (j + 1) := by omega
            rw [hn]

/-- C6 witness: a two-entry execution list in which the first file
materializes and the second fails because its path already exists; the
loop stops at index 1, keeps the first entry's effects and wraps the
creation error with the offending index. -/
theorem claim_C6_witness :
    createLoop oracle6 cfg0 0 demoStore (demoExec.take 1)
      = (demoStore61, demoEffs6, none) ∧
    demoExec.get? 1 = some (ExecItem.file "b.dat") ∧
    createItem oracle6 cfg0 demoStore61 (ExecItem.file "b.dat")
      = ((createItem oracle6 cfg0 demoStore61 (ExecItem.file "b.dat")).1,
         (createItem oracle6 cfg0 demoStore61 (ExecItem.file "b.dat")).2.1,
         some (CreateErr.creation "Path already exists.")) ∧
    createLoop oracle6 cfg0 0 demoStore demoExec
      = ((createItem oracle6 cfg0 demoStore61 (ExecItem.file "b.dat")).1,
         demoEffs6 ++
           (createItem oracle6 cfg0 demoStore61 (ExecItem.file "b.dat")).2.1,
         some (wrapCreateErr 1 (CreateErr.creation "Path already exists."))) :=
  ⟨rfl, rfl, rfl,
   claim_C6_ordered_materialization oracle6 cfg0 demoExec 1
     (ExecItem.file "b.dat") demoStore demoStore61
     (createItem oracle6 cfg0 demoStore61 (ExecItem.file "b.dat")).1
     demoEffs6
     (createItem oracle6 cfg0 demoStore61 (ExecItem.file "b.dat")).2.1
     (CreateErr.creation "Path already exists.") rfl rfl rfl⟩
